import Mathlib

/-!
# ProxyCast core — shallow embedding and verification

This file embeds the parts of the ProxyCast gateway that the specification's
testable claims talk about, and proves (or refutes) those claims.

Conventions of the embedding:
* Rust `u32`/`u64`/`usize` counters are modelled as `Nat`; overflow of these
  counters would be a panic (debug) or an unreachable wrap in the source, so
  it is treated as out of the modelled domain.
* `chrono::DateTime<Utc>` instants and `chrono::Duration` values are modelled
  as `Int` milliseconds (chrono's sub-second precision matters for the
  rate-limit predicates).
* `f64` values that the source obtains from decimal literals and decimal
  strings are modelled as exact decimals (mantissa/scale pairs); the
  `as i64` / `as u32` casts are modelled as truncation toward zero, which
  for the nonnegative values involved is floor division.  On every input a
  claim mentions, the exact-decimal result coincides with the float result.
* Rust `String` is modelled as `String` where the source iterates over chars,
  and as `List Nat` (UTF-8 bytes, each < 256) where the source works on bytes.
* Randomness (UUIDs) and wall-clock reads are passed in as explicit arguments.
-/

set_option maxRecDepth 8000

namespace ProxyCast

/-! ## Credential store — `models/provider_pool_model.rs`

`ProviderCredential` keeps only the fields the health/usage operations touch;
the payload variant, name, token cache and model lists are not read by any of
the operations below. -/

structure ProviderCredential where
  uuid : String
  is_healthy : Bool
  is_disabled : Bool
  usage_count : Nat
  error_count : Nat
  last_used : Option Int
  last_error_time : Option Int
  last_error_message : Option String
  last_health_check_time : Option Int
  last_health_check_model : Option String
  created_at : Int
  updated_at : Int
  deriving Repr, DecidableEq

namespace ProviderCredential

/-- Model of `ProviderCredential::new` (the fresh UUID and `Utc::now()` are inputs). -/
def new (uuid : String) (now : Int) : ProviderCredential :=
  { uuid := uuid
    is_healthy := true
    is_disabled := false
    usage_count := 0
    error_count := 0
    last_used := none
    last_error_time := none
    last_error_message := none
    last_health_check_time := none
    last_health_check_model := none
    created_at := now
    updated_at := now }

/-- Model of `ProviderCredential::is_available`. -/
def is_available (c : ProviderCredential) : Bool :=
  c.is_healthy && !c.is_disabled

/-- Model of `ProviderCredential::mark_healthy`. -/
def mark_healthy (c : ProviderCredential) (check_model : Option String)
    (now : Int) : ProviderCredential :=
  { c with
    is_healthy := true
    error_count := 0
    last_health_check_time := some now
    last_health_check_model := check_model
    updated_at := now }

/-- Model of `ProviderCredential::mark_unhealthy`: increments `error_count`, and flips
`is_healthy` to `false` once the count is at least 3. -/
def mark_unhealthy (c : ProviderCredential) (error_message : Option String)
    (now : Int) : ProviderCredential :=
  let c := { c with
    error_count := c.error_count + 1
    last_error_time := some now
    last_error_message := error_message
    updated_at := now }
  if c.error_count ≥ 3 then { c with is_healthy := false } else c

/-- Model of `ProviderCredential::record_usage`. -/
def record_usage (c : ProviderCredential) (now : Int) : ProviderCredential :=
  { c with
    usage_count := c.usage_count + 1
    last_used := some now
    updated_at := now }

/-- Model of `ProviderCredential::reset_counters`. -/
def reset_counters (c : ProviderCredential) (now : Int) : ProviderCredential :=
  { c with
    usage_count := 0
    error_count := 0
    is_healthy := true
    last_error_time := none
    last_error_message := none
    updated_at := now }

end ProviderCredential

/-- One call of a credential mutation, with its wall-clock argument. -/
inductive CredOp where
  | mark_healthy (check_model : Option String) (now : Int)
  | mark_unhealthy (error_message : Option String) (now : Int)
  | record_usage (now : Int)
  | reset_counters (now : Int)
  deriving Repr, DecidableEq

/-- Apply one credential operation. -/
def applyCredOp (c : ProviderCredential) : CredOp → ProviderCredential
  | .mark_healthy m t => c.mark_healthy m t
  | .mark_unhealthy m t => c.mark_unhealthy m t
  | .record_usage t => c.record_usage t
  | .reset_counters t => c.reset_counters t

/-- Apply a sequence of credential operations, first element first. -/
def applyCredOps (c : ProviderCredential) (ops : List CredOp) : ProviderCredential :=
  ops.foldl applyCredOp c

/-- The health invariant of the spec: `is_healthy = (error_count < 3)`. -/
def healthInv (c : ProviderCredential) : Prop :=
  c.is_healthy = decide (c.error_count < 3)

instance (c : ProviderCredential) : Decidable (healthInv c) := by
  unfold healthInv; infer_instance

lemma healthInv_new (uuid : String) (now : Int) :
    healthInv (ProviderCredential.new uuid now) := by
  simp [healthInv, ProviderCredential.new]

lemma healthInv_applyCredOp {c : ProviderCredential} (h : healthInv c)
    (op : CredOp) : healthInv (applyCredOp c op) := by
  cases op with
  | mark_healthy m t => simp [applyCredOp, ProviderCredential.mark_healthy, healthInv]
  | mark_unhealthy m t =>
      simp only [applyCredOp, ProviderCredential.mark_unhealthy, healthInv] at h ⊢
      by_cases h3 : c.error_count + 1 ≥ 3
      · rw [if_pos h3]
        have hlt : ¬ (c.error_count + 1 < 3) := by omega
        simp [hlt]
      · rw [if_neg h3]
        have h1 : c.error_count < 3 := by omega
        have h2 : c.error_count + 1 < 3 := by omega
        simp [h, h1, h2]
  | record_usage t =>
      simpa [applyCredOp, ProviderCredential.record_usage, healthInv] using h
  | reset_counters t => simp [applyCredOp, ProviderCredential.reset_counters, healthInv]

lemma healthInv_applyCredOps {c : ProviderCredential} (h : healthInv c)
    (ops : List CredOp) : healthInv (applyCredOps c ops) := by
  induction ops generalizing c with
  | nil => exact h
  | cons op rest ih => exact ih (healthInv_applyCredOp h op)

/-- Claim **C1.** Starting from a freshly created credential, every sequence of the
operations `mark_healthy`, `mark_unhealthy`, `record_usage`, `reset_counters`
preserves the invariant `is_healthy = (error_count < 3)`; moreover
`mark_healthy` zeroes `error_count` and sets `is_healthy`, and
`mark_unhealthy` bumps the count by one and turns `is_healthy` off exactly
when the bumped count has reached 3. -/
theorem credential_health_invariant (uuid : String) (t0 : Int) (ops : List CredOp) :
    healthInv (applyCredOps (ProviderCredential.new uuid t0) ops)
    ∧ (∀ c : ProviderCredential, ∀ m t,
        (c.mark_healthy m t).error_count = 0 ∧ (c.mark_healthy m t).is_healthy = true)
    ∧ (∀ c : ProviderCredential, ∀ m t,
        (c.mark_unhealthy m t).error_count = c.error_count + 1
        ∧ ((c.mark_unhealthy m t).is_healthy =
            if c.error_count + 1 ≥ 3 then false else c.is_healthy)) := by
  refine ⟨healthInv_applyCredOps (healthInv_new uuid t0) ops, ?_, ?_⟩
  · intro c m t
    simp [ProviderCredential.mark_healthy]
  · intro c m t
    by_cases h3 : c.error_count + 1 ≥ 3 <;>
      simp [ProviderCredential.mark_unhealthy, h3]

/-! ## Rate-limit tracker — `session/rate_limit.rs`

Instants are `Int` milliseconds.  `chrono::Duration::num_seconds` rounds
toward zero, which on a millisecond difference is `Int.tdiv _ 1000`. -/

/-- Unicode `White_Space` codepoints, the set trimmed by Rust's `str::trim`. -/
def isRustWhitespace (c : Nat) : Bool :=
  c = 0x09 || c = 0x0A || c = 0x0B || c = 0x0C || c = 0x0D || c = 0x20 ||
  c = 0x85 || c = 0xA0 || c = 0x1680 ||
  (0x2000 ≤ c && c ≤ 0x200A) ||
  c = 0x2028 || c = 0x2029 || c = 0x202F || c = 0x205F || c = 0x3000

/-- Rust `str::trim` on a list of chars. -/
def rustTrimChars (cs : List Char) : List Char :=
  ((cs.dropWhile (fun c => isRustWhitespace c.toNat)).reverse.dropWhile
    (fun c => isRustWhitespace c.toNat)).reverse

/-- Fold decimal digits into a natural number. -/
def digitsToNat (cs : List Char) : Nat :=
  cs.foldl (fun acc c => acc * 10 + (c.toNat - '0'.toNat)) 0

/-- The exact value of a `[0-9.]*` string under `str::parse::<f64>`, as a
mantissa/scale pair standing for `mant / 10^scale`: `none` on the strings
that parser rejects (no digits, or a second dot).  The source feeds only
such strings to the float parser, and on every input of the claims the
float rounding does not change the truncated result, so the exact decimal
value is the faithful model. -/
def parseNumD (cs : List Char) : Option (Nat × Nat) :=
  if cs.any (fun c => !(c.isDigit || c == '.')) then none
  else
    match cs.splitOn '.' with
    | [intPart] =>
        if intPart.isEmpty then none
        else some (digitsToNat intPart, 0)
    | [intPart, fracPart] =>
        if intPart.isEmpty && fracPart.isEmpty then none
        else some (digitsToNat intPart * 10 ^ fracPart.length
          + digitsToNat fracPart, fracPart.length)
    | _ => none

/-- Model of `(value * k) as i64` for the nonnegative decimal `mant / 10^scale`:
floor division, since the value is nonnegative. -/
def decMulTrunc (mant scale k : Nat) : Nat :=
  mant * k / 10 ^ scale

/-- The scan loop of `parse_duration_string`: accumulate a number, then apply
its unit suffix (`h`, `m`, `ms`, `s`); a trailing bare number is seconds.
The fuel argument only makes the recursion structural; every step consumes at
least one char, so fuel equal to the input length never runs out. -/
def pdsLoop : Nat → List Char → List Char → Int → Option Int
  | _, [], num, total =>
      if num.isEmpty then some total
      else do
        let (mant, scale) ← parseNumD num
        some (total + (decMulTrunc mant scale 1000 : Nat))
  | 0, _ :: _, _, _ => none
  | fuel + 1, c :: rest, num, total =>
      if c.isDigit || c == '.' then pdsLoop fuel rest (num ++ [c]) total
      else if num.isEmpty then pdsLoop fuel rest [] total
      else
        match parseNumD num with
        | none => none
        | some (mant, scale) =>
          if c == 'h' then
            pdsLoop fuel rest [] (total + (decMulTrunc mant scale 3600000 : Nat))
          else if c == 'm' then
            if rest.head? == some 's' then
              pdsLoop fuel rest.tail [] (total + (decMulTrunc mant scale 1 : Nat))
            else
              pdsLoop fuel rest [] (total + (decMulTrunc mant scale 60000 : Nat))
          else if c == 's' then
            pdsLoop fuel rest [] (total + (decMulTrunc mant scale 1000 : Nat))
          else none

/-- Model of `parse_duration_string`, returning total milliseconds. -/
def parse_duration_string (s : String) : Option Int :=
  let t := rustTrimChars s.toList
  if t.isEmpty then none
  else
    match pdsLoop t.length t [] 0 with
    | none => none
    | some total => if total > 0 then some total else none

/-- Model of `RateLimitReason`. -/
inductive RateLimitReason where
  | QuotaExhausted | RateLimitExceeded | ModelCapacityExhausted
  | ServerError | Unknown
  deriving Repr, DecidableEq

/-- Model of `RateLimitRecord` (times in `Int` milliseconds). -/
structure RateLimitRecord where
  account_id : String
  reason : RateLimitReason
  started_at : Int
  reset_at : Int
  consecutive_failures : Nat
  model : Option String
  deriving Repr, DecidableEq

/-- Association-list lookup, the view of a `DashMap` read. -/
def alookup {α : Type} (k : String) (l : List (String × α)) : Option α :=
  (l.find? (fun p => p.1 == k)).map (·.2)

/-- Association-list overwrite, the view of a `DashMap` insert. -/
def aset {α : Type} (k : String) (v : α) (l : List (String × α)) :
    List (String × α) :=
  (k, v) :: l.filter (fun p => !(p.1 == k))

/-- Model of `RateLimitTracker`: the two limit maps, the per-account failure counters
and the backoff parameters. -/
structure RateLimitTracker where
  account_limits : List (String × RateLimitRecord)
  model_limits : List (String × RateLimitRecord)
  failure_counts : List (String × Nat)
  base_backoff_seconds : Nat
  max_backoff_seconds : Nat
  deriving Repr, DecidableEq

namespace RateLimitTracker

/-- Model of `RateLimitTracker::new`. -/
def new (base max : Nat) : RateLimitTracker :=
  { account_limits := []
    model_limits := []
    failure_counts := []
    base_backoff_seconds := base
    max_backoff_seconds := max }

/-- Model of `RateLimitTracker::default()`: base 5 s, cap 300 s. -/
def defaultTracker : RateLimitTracker := new 5 300

/-- Model of `calculate_exponential_backoff` (result in seconds): the exponent is
clamped at 10 before shifting. -/
def calculate_exponential_backoff (t : RateLimitTracker) (failure_count : Nat) : Nat :=
  let exponent := min (failure_count - 1) 10
  min (t.base_backoff_seconds * 2 ^ exponent) t.max_backoff_seconds

/-- Model of `mark_rate_limited`; `retry_after` in milliseconds.  Returns the record
and the updated tracker. -/
def mark_rate_limited (t : RateLimitTracker) (now : Int) (account_id : String)
    (reason : RateLimitReason) (retry_after : Option Int)
    (model : Option String) : RateLimitRecord × RateLimitTracker :=
  let failure_count := (alookup account_id t.failure_counts).getD 0 + 1
  let backoff : Int :=
    match retry_after with
    | some retry => retry
    | none => 1000 * (t.calculate_exponential_backoff failure_count : Int)
  let reset_at := now + backoff
  let record : RateLimitRecord :=
    { account_id := account_id
      reason := reason
      started_at := now
      reset_at := reset_at
      consecutive_failures := failure_count
      model := model }
  let t1 := { t with failure_counts := aset account_id failure_count t.failure_counts }
  match model with
  | some m =>
      (record, { t1 with model_limits := aset (account_id ++ ":" ++ m) record t1.model_limits })
  | none =>
      (record, { t1 with account_limits := aset account_id record t1.account_limits })

/-- Model of `get_remaining_wait` (whole seconds). -/
def get_remaining_wait (t : RateLimitTracker) (now : Int) (account_id : String) : Int :=
  match alookup account_id t.account_limits with
  | some record =>
      let remaining := Int.tdiv (record.reset_at - now) 1000
      if remaining > 0 then remaining else 0
  | none => 0

/-- Model of `is_rate_limited`. -/
def is_rate_limited (t : RateLimitTracker) (now : Int) (account_id : String) : Bool :=
  decide (t.get_remaining_wait now account_id > 0)

/-- Model of `is_model_rate_limited`. -/
def is_model_rate_limited (t : RateLimitTracker) (now : Int)
    (account_id model : String) : Bool :=
  match alookup (account_id ++ ":" ++ model) t.model_limits with
  | some record => decide (now < record.reset_at)
  | none => false

/-- Model of `clear_rate_limit`: drop the account record, zero the failure counter. -/
def clear_rate_limit (t : RateLimitTracker) (account_id : String) : RateLimitTracker :=
  { t with
    account_limits := t.account_limits.filter (fun p => !(p.1 == account_id))
    failure_counts := t.failure_counts.map
      (fun p => if p.1 == account_id then (p.1, 0) else p) }

end RateLimitTracker

/-! ### Claims about the rate-limit tracker -/

/-- Claim **C6.** Boundary values of the duration parser, plus a concatenated
fractional input and a bare-number-is-seconds input. -/
theorem duration_parser_boundaries :
    parse_duration_string "" = none
    ∧ parse_duration_string "1.5s" = some 1500
    ∧ parse_duration_string "1h16m0.667s" = some 4560667
    ∧ parse_duration_string "500ms" = some 500
    ∧ parse_duration_string "2h" = some 7200000
    ∧ parse_duration_string "invalid" = none
    ∧ parse_duration_string "90" = some 90000
    ∧ parse_duration_string "0.5m1.25s" = some 31250 := by
  decide

/-- The record looked up by `is_rate_limited` in the counterexample tracker:
half a second of rate limit remaining. -/
def subSecondRecord : RateLimitRecord :=
  { account_id := "acct"
    reason := .RateLimitExceeded
    started_at := 0
    reset_at := 500
    consecutive_failures := 1
    model := none }

/-- A tracker holding `subSecondRecord` under key `"acct"`. -/
def subSecondTracker : RateLimitTracker :=
  { account_limits := [("acct", subSecondRecord)]
    model_limits := []
    failure_counts := [("acct", 1)]
    base_backoff_seconds := 5
    max_backoff_seconds := 300 }

/-- Claim **C5 counterexample.** At `now = 0` the stored record has
`reset_at = 500 ms`, so `now < reset_at`, yet `is_rate_limited` answers
`false`: the account-level check tests whole remaining seconds, not
`now < reset_at`. -/
theorem is_rate_limited_subsecond_counterexample :
    alookup "acct" subSecondTracker.account_limits = some subSecondRecord
    ∧ (0 : Int) < subSecondRecord.reset_at
    ∧ subSecondTracker.is_rate_limited 0 "acct" = false := by
  decide

/-- Claim **C5 (amended).** `is_model_rate_limited` is true iff the matching record
exists and `now < reset_at`; `is_rate_limited` is true iff the matching
record exists and at least one whole second remains before `reset_at`
(truncated division by 1000), and both are false when no record exists. -/
theorem rate_limited_characterization (t : RateLimitTracker) (now : Int)
    (account model : String) :
    (t.is_model_rate_limited now account model = true ↔
      ∃ r, alookup (account ++ ":" ++ model) t.model_limits = some r
        ∧ now < r.reset_at)
    ∧ (t.is_rate_limited now account = true ↔
      ∃ r, alookup account t.account_limits = some r
        ∧ 0 < Int.tdiv (r.reset_at - now) 1000) := by
  constructor
  · unfold RateLimitTracker.is_model_rate_limited
    cases h : alookup (account ++ ":" ++ model) t.model_limits with
    | none => simp
    | some r => simp [h]
  · unfold RateLimitTracker.is_rate_limited RateLimitTracker.get_remaining_wait
    cases h : alookup account t.account_limits with
    | none => simp
    | some r =>
        by_cases h2 : 0 < Int.tdiv (r.reset_at - now) 1000
        · simp [h, h2]
        · simp only [decide_eq_true_eq]
          rw [if_neg (by omega)]
          simp [h2]

/-- Claim **C5 witness-style instance**: with a record one full second away the
account-level check does answer true. -/
theorem rate_limited_characterization_inst :
    RateLimitTracker.is_rate_limited
      { subSecondTracker with
        account_limits := [("acct", { subSecondRecord with reset_at := 1000 })] }
      0 "acct" = true := by
  decide

lemma calc_backoff_5_300 (t : RateLimitTracker) (hb : t.base_backoff_seconds = 5)
    (hm : t.max_backoff_seconds = 300) (f : Nat) (hf : 1 ≤ f) :
    t.calculate_exponential_backoff f = min (5 * 2 ^ (f - 1)) 300 := by
  unfold RateLimitTracker.calculate_exponential_backoff
  rw [hb, hm]
  by_cases he : f - 1 ≤ 10
  · rw [min_eq_left he]
  · rw [min_eq_right (by omega : (10 : Nat) ≤ f - 1)]
    have h2 : (300 : Nat) ≤ 5 * 2 ^ (f - 1) := by
      have h11 : (11 : Nat) ≤ f - 1 := by omega
      have hp : (2 : Nat) ^ 11 ≤ 2 ^ (f - 1) :=
        Nat.pow_le_pow_right (by norm_num) h11
      calc (300 : Nat) ≤ 5 * 2 ^ 11 := by norm_num
        _ ≤ 5 * 2 ^ (f - 1) := by omega
    rw [min_eq_right h2]
    norm_num

/-- Claim **C7.** With the default parameters (base 5 s, cap 300 s), the exponential
backoff equals `min (5 · 2^(failures−1), 300)` seconds for every failure
count ≥ 1 — in particular 5 s, 10 s, 20 s and 300 s at counts 1, 2, 3 and 7 —
and `mark_rate_limited` without a `retry_after` sets
`reset_at = now + backoff` for the post-increment failure count. -/
theorem exponential_backoff_spec (f : Nat) (hf : 1 ≤ f) :
    RateLimitTracker.defaultTracker.calculate_exponential_backoff f
      = min (5 * 2 ^ (f - 1)) 300
    ∧ RateLimitTracker.defaultTracker.calculate_exponential_backoff 1 = 5
    ∧ RateLimitTracker.defaultTracker.calculate_exponential_backoff 2 = 10
    ∧ RateLimitTracker.defaultTracker.calculate_exponential_backoff 3 = 20
    ∧ RateLimitTracker.defaultTracker.calculate_exponential_backoff 7 = 300
    ∧ (∀ (t : RateLimitTracker), t.base_backoff_seconds = 5 →
        t.max_backoff_seconds = 300 →
        ∀ (now : Int) (account : String) (reason : RateLimitReason)
          (model : Option String),
          (t.mark_rate_limited now account reason none model).1.reset_at =
            now + 1000 * ((min (5 * 2 ^
              ((t.mark_rate_limited now account reason none model).1.consecutive_failures
                - 1)) 300 : Nat) : Int)) := by
  refine ⟨calc_backoff_5_300 _ rfl rfl f hf, by decide, by decide, by decide, by decide, ?_⟩
  intro t hb hm now account reason model
  have hcalc := calc_backoff_5_300 t hb hm
    ((alookup account t.failure_counts).getD 0 + 1) (by omega)
  cases model with
  | none =>
      simp only [RateLimitTracker.mark_rate_limited, hcalc]
  | some m =>
      simp only [RateLimitTracker.mark_rate_limited, hcalc]

/-- Claim **C7 witness**: the theorem applied at failure count 7. -/
theorem exponential_backoff_spec_witness :
    1 ≤ 7
    ∧ RateLimitTracker.defaultTracker.calculate_exponential_backoff 7
        = min (5 * 2 ^ (7 - 1)) 300 :=
  ⟨by decide, (exponential_backoff_spec 7 (by decide)).1⟩

/-! ## Sticky session manager — `session/sticky_manager.rs`

`Instant` values are abstract `Nat` tags; the environment carries the
wall-clock reads (`elapsed`) and the rate-limit tracker reads made during one
`select_account` call. -/

/-- Model of `AccountInfo`. -/
structure AccountInfo where
  account_id : String
  email : String
  subscription_tier : Option String
  disabled : Bool
  deriving Repr, DecidableEq

/-- Model of `AccountInfo::tier_priority`: ULTRA 0, PRO 1, FREE 2, unknown 3. -/
def AccountInfo.tier_priority (a : AccountInfo) : Nat :=
  match a.subscription_tier with
  | some "ULTRA" => 0
  | some "PRO" => 1
  | some "FREE" => 2
  | _ => 3

/-- Model of `SchedulingMode`. -/
inductive SchedulingMode where
  | CacheFirst | Balance | PerformanceFirst
  deriving Repr, DecidableEq

/-- Model of `StickySessionConfig`. -/
structure StickySessionConfig where
  mode : SchedulingMode
  max_wait_seconds : Nat
  global_lock_window_seconds : Nat
  deriving Repr, DecidableEq

/-- The mutable state of a `StickySessionManager`. -/
structure StickyState where
  session_accounts : List (String × String)
  last_used_account : Option (String × Nat)
  current_index : Nat
  sticky_config : StickySessionConfig
  deriving Repr, DecidableEq

/-- The reads `select_account` makes of its surroundings: the rate-limit
tracker (keyed by account email, as in the source) and the elapsed seconds
of a stored instant, plus the `Instant::now()` recorded on selection. -/
structure StickyEnv where
  rateLimited : String → Bool
  elapsedSecs : Nat → Nat
  nowInstant : Nat

/-- Model of `StickySessionManager::unbind_session`. -/
def unbindSession (st : StickyState) (sid : String) : StickyState :=
  { st with session_accounts := st.session_accounts.filter (fun p => !(p.1 == sid)) }

/-- Model of `sorted_accounts.sort_by_key(tier_priority)`: a stable sort by a key in
`{0,1,2,3}` is bucketting by key value. -/
def tierSorted (accounts : List AccountInfo) : List AccountInfo :=
  accounts.filter (fun a => a.tier_priority == 0)
    ++ accounts.filter (fun a => a.tier_priority == 1)
    ++ accounts.filter (fun a => a.tier_priority == 2)
    ++ accounts.filter (fun a => a.tier_priority == 3)

/-- The rotation scan of phase C: starting at `start`, the first candidate in
cyclic order that is neither disabled nor rate-limited. -/
def rotationFind (env : StickyEnv) (sorted : List AccountInfo) (start : Nat) :
    Option AccountInfo :=
  (List.range sorted.length).findSome? (fun offset =>
    match sorted.get? ((start + offset) % sorted.length) with
    | some cand =>
        if cand.disabled then none
        else if env.rateLimited cand.email then none
        else some cand
    | none => none)

/-- Phases B (global lock window) and C (rotation) of `select_account`. -/
def selectPhasesBC (env : StickyEnv) (st : StickyState)
    (sorted : List AccountInfo) (session_id : Option String)
    (force_rotate : Bool) (quota_group : String) :
    Option AccountInfo × StickyState :=
  let lockHit : Option AccountInfo :=
    if !force_rotate && !(quota_group == "image_gen")
        && st.sticky_config.global_lock_window_seconds > 0 then
      match st.last_used_account with
      | some (account_id, last_time) =>
          if env.elapsedSecs last_time < st.sticky_config.global_lock_window_seconds then
            match sorted.find? (fun a => a.account_id == account_id) with
            | some account =>
                if !(env.rateLimited account.email) then some account else none
            | none => none
          else none
      | none => none
    else none
  match lockHit with
  | some account => (some account, st)
  | none =>
      let total := sorted.length
      let start_idx := st.current_index % total
      let st1 := { st with current_index := st.current_index + 1 }
      match rotationFind env sorted start_idx with
      | some cand =>
          let st2 := { st1 with
            last_used_account := some (cand.account_id, env.nowInstant) }
          let st3 :=
            match session_id with
            | some sid =>
                if !(st2.sticky_config.mode == SchedulingMode.PerformanceFirst) then
                  { st2 with
                    session_accounts := aset sid cand.account_id st2.session_accounts }
                else st2
            | none => st2
          (some cand, st3)
      | none => (none, st1)

/-- Model of `StickySessionManager::select_account`. -/
def select_account (env : StickyEnv) (st : StickyState)
    (accounts : List AccountInfo) (session_id : Option String)
    (force_rotate : Bool) (quota_group : String) :
    Option AccountInfo × StickyState :=
  if accounts.isEmpty then (none, st)
  else
    let sorted := tierSorted accounts
    if !force_rotate && session_id.isSome
        && !(st.sticky_config.mode == SchedulingMode.PerformanceFirst) then
      match session_id with
      | some sid =>
          match alookup sid st.session_accounts with
          | some bound_id =>
              match sorted.find? (fun a => a.account_id == bound_id) with
              | some bound_account =>
                  if !(env.rateLimited bound_account.email) then
                    (some bound_account, st)
                  else
                    selectPhasesBC env (unbindSession st sid) sorted
                      session_id force_rotate quota_group
              | none =>
                  selectPhasesBC env (unbindSession st sid) sorted
                    session_id force_rotate quota_group
          | none => selectPhasesBC env st sorted session_id force_rotate quota_group
      | none => selectPhasesBC env st sorted session_id force_rotate quota_group
    else selectPhasesBC env st sorted session_id force_rotate quota_group

lemma tierSorted_nil : tierSorted [] = [] := rfl

/-- Claim **C4.** Without `force_rotate` and outside Performance mode, a session
bound to a candidate present in the (sorted) candidate list gets that
candidate back when it is not disabled and not rate-limited; when the bound
candidate is rate-limited, the call unbinds the session and computes exactly
what the later phases compute on the unbound state. -/
theorem sticky_phase_spec
    (env : StickyEnv) (st : StickyState) (accounts : List AccountInfo)
    (sid quota_group bound_id : String) (bound : AccountInfo)
    (hmode : st.sticky_config.mode ≠ SchedulingMode.PerformanceFirst)
    (hbound : alookup sid st.session_accounts = some bound_id)
    (hfind : (tierSorted accounts).find? (fun a => a.account_id == bound_id)
      = some bound) :
    (env.rateLimited bound.email = false → bound.disabled = false →
      select_account env st accounts (some sid) false quota_group = (some bound, st))
    ∧ (env.rateLimited bound.email = true →
      select_account env st accounts (some sid) false quota_group =
        selectPhasesBC env (unbindSession st sid) (tierSorted accounts)
          (some sid) false quota_group) := by
  have hne : accounts.isEmpty = false := by
    cases accounts with
    | nil => rw [tierSorted_nil] at hfind; simp at hfind
    | cons a rest => rfl
  have hmodeb : (st.sticky_config.mode == SchedulingMode.PerformanceFirst) = false := by
    cases hm : st.sticky_config.mode == SchedulingMode.PerformanceFirst
    · rfl
    · exact absurd (by simpa using hm) hmode
  constructor
  · intro hrl _
    unfold select_account
    rw [hne]
    simp only [Bool.false_eq_true, if_false, hmodeb, hbound, hfind, hrl]
    rfl
  · intro hrl
    unfold select_account
    rw [hne]
    simp only [Bool.false_eq_true, if_false, hmodeb, hbound, hfind, hrl]
    rfl

/-- Concrete data for the C4 witness. -/
def c4Account : AccountInfo :=
  { account_id := "a1", email := "e1", subscription_tier := some "PRO"
    disabled := false }

/-- Environment for the C4 witness: nothing rate-limited. -/
def c4Env : StickyEnv :=
  { rateLimited := fun _ => false, elapsedSecs := fun _ => 0, nowInstant := 0 }

/-- State for the C4 witness: session `s1` bound to account `a1`. -/
def c4State : StickyState :=
  { session_accounts := [("s1", "a1")]
    last_used_account := none
    current_index := 0
    sticky_config :=
      { mode := .Balance, max_wait_seconds := 60, global_lock_window_seconds := 60 } }

/-- Claim **C4 witness**: the bound, available, unlimited candidate is returned. -/
theorem sticky_phase_spec_witness :
    select_account c4Env c4State [c4Account] (some "s1") false "claude"
      = (some c4Account, c4State) :=
  (sticky_phase_spec c4Env c4State [c4Account] "s1" "claude" "a1" c4Account
    (by decide) (by decide) (by decide)).1 rfl rfl

/-! ## Bytes, UTF-8 and JSON values — prerequisites for `server.rs`

The event-stream parser works on the bytes of a Rust `&str`; strings on that
side are modelled as `List Nat` of UTF-8 bytes. -/

/-- UTF-8 encoding of one codepoint. -/
def utf8EncodeCp (c : Nat) : List Nat :=
  if c < 0x80 then [c]
  else if c < 0x800 then [0xC0 + c / 64, 0x80 + c % 64]
  else if c < 0x10000 then [0xE0 + c / 4096, 0x80 + c / 64 % 64, 0x80 + c % 64]
  else [0xF0 + c / 262144, 0x80 + c / 4096 % 64, 0x80 + c / 64 % 64, 0x80 + c % 64]

/-- UTF-8 encoding of a list of codepoints. -/
def utf8Encode (cps : List Nat) : List Nat :=
  cps.flatMap utf8EncodeCp

/-- The UTF-8 bytes of a string. -/
def strBytes (s : String) : List Nat :=
  utf8Encode (s.toList.map Char.toNat)

/-- UTF-8 decoding (codepoints of a byte list); `none` on malformed input.
Overlong forms and lone surrogates are accepted leniently: the inputs this is
applied to are bytes of Rust strings, which are valid UTF-8. -/
def utf8Decode : List Nat → Option (List Nat)
  | [] => some []
  | b :: t =>
      if b < 0x80 then (utf8Decode t).map (b :: ·)
      else if b < 0xC0 then none
      else if b < 0xE0 then
        match t with
        | c1 :: t1 =>
            if 0x80 ≤ c1 && c1 < 0xC0 then
              (utf8Decode t1).map (((b - 0xC0) * 64 + (c1 - 0x80)) :: ·)
            else none
        | _ => none
      else if b < 0xF0 then
        match t with
        | c1 :: c2 :: t2 =>
            if (0x80 ≤ c1 && c1 < 0xC0) && (0x80 ≤ c2 && c2 < 0xC0) then
              (utf8Decode t2).map
                (((b - 0xE0) * 4096 + (c1 - 0x80) * 64 + (c2 - 0x80)) :: ·)
            else none
        | _ => none
      else if b < 0xF5 then
        match t with
        | c1 :: c2 :: c3 :: t3 =>
            if (0x80 ≤ c1 && c1 < 0xC0) && (0x80 ≤ c2 && c2 < 0xC0)
                && (0x80 ≤ c3 && c3 < 0xC0) then
              (utf8Decode t3).map
                (((b - 0xF0) * 262144 + (c1 - 0x80) * 4096
                  + (c2 - 0x80) * 64 + (c3 - 0x80)) :: ·)
            else none
        | _ => none
      else none

/-- Rust `str::trim` at the byte level: decode, drop Unicode whitespace at
both ends, re-encode.  The `none` arm of the decode is unreachable on the
valid-UTF-8 inputs the source feeds it. -/
def rustTrimBytes (bs : List Nat) : List Nat :=
  match utf8Decode bs with
  | some cps =>
      utf8Encode
        (((cps.dropWhile isRustWhitespace).reverse.dropWhile isRustWhitespace).reverse)
  | none => bs

/-- An exact decimal `±mant / 10^scale`, the model of the `f64` values the
source reads out of JSON text. -/
structure Dec where
  neg : Bool
  mant : Nat
  scale : Nat
  deriving Repr, DecidableEq

/-- The zero decimal, `f64::default()`. -/
def Dec.zero : Dec := ⟨false, 0, 0⟩

/-- Model of `serde_json::Value`, with strings kept as UTF-8 bytes and numbers as
exact decimals. -/
inductive Json where
  | null
  | bool (b : Bool)
  | num (d : Dec)
  | str (s : List Nat)
  | arr (xs : List Json)
  | obj (fields : List (List Nat × Json))

/-- JSON whitespace bytes. -/
def jsonWs (b : Nat) : Bool :=
  b == 0x20 || b == 0x09 || b == 0x0A || b == 0x0D

/-- Drop leading JSON whitespace. -/
def skipWs (bs : List Nat) : List Nat :=
  bs.dropWhile jsonWs

/-- ASCII digit byte. -/
def isDigitByte (b : Nat) : Bool := 0x30 ≤ b && b ≤ 0x39

/-- Take one or more bytes satisfying `p`; `none` if the first byte fails. -/
def takeWhile1 (p : Nat → Bool) (bs : List Nat) : Option (List Nat × List Nat) :=
  let t := bs.takeWhile p
  if t.isEmpty then none else some (t, bs.drop t.length)

/-- Digit bytes to a natural number. -/
def digitBytesToNat (bs : List Nat) : Nat :=
  bs.foldl (fun acc b => acc * 10 + (b - 0x30)) 0

/-- Value of a hex digit byte, if any. -/
def hexVal (b : Nat) : Option Nat :=
  if 0x30 ≤ b && b ≤ 0x39 then some (b - 0x30)
  else if 0x41 ≤ b && b ≤ 0x46 then some (b - 0x41 + 10)
  else if 0x61 ≤ b && b ≤ 0x66 then some (b - 0x61 + 10)
  else none

/-- Parse exactly four hex digits. -/
def parseHex4 : List Nat → Option (Nat × List Nat)
  | a :: b :: c :: d :: rest => do
      let va ← hexVal a
      let vb ← hexVal b
      let vc ← hexVal c
      let vd ← hexVal d
      some (va * 4096 + vb * 256 + vc * 16 + vd, rest)
  | _ => none

/-- The body of a JSON string (opening quote already consumed): unescape to
UTF-8 bytes, handling `\uXXXX` with surrogate pairs, rejecting raw control
bytes, as `serde_json` does. -/
def parseJStringBody : Nat → List Nat → List Nat → Option (List Nat × List Nat)
  | 0, _, _ => none
  | _ + 1, acc, 0x22 :: rest => some (acc.reverse, rest)
  | fuel + 1, acc, 0x5C :: e :: rest =>
      if e == 0x22 || e == 0x5C || e == 0x2F then
        parseJStringBody fuel (e :: acc) rest
      else if e == 0x62 then parseJStringBody fuel (0x08 :: acc) rest
      else if e == 0x66 then parseJStringBody fuel (0x0C :: acc) rest
      else if e == 0x6E then parseJStringBody fuel (0x0A :: acc) rest
      else if e == 0x72 then parseJStringBody fuel (0x0D :: acc) rest
      else if e == 0x74 then parseJStringBody fuel (0x09 :: acc) rest
      else if e == 0x75 then
        match parseHex4 rest with
        | some (cp, rest1) =>
            if 0xD800 ≤ cp && cp ≤ 0xDBFF then
              match rest1 with
              | 0x5C :: 0x75 :: rest2 =>
                  match parseHex4 rest2 with
                  | some (lo, rest3) =>
                      if 0xDC00 ≤ lo && lo ≤ 0xDFFF then
                        parseJStringBody fuel
                          (((utf8EncodeCp
                            (0x10000 + (cp - 0xD800) * 1024 + (lo - 0xDC00))).reverse)
                            ++ acc) rest3
                      else none
                  | none => none
              | _ => none
            else if 0xDC00 ≤ cp && cp ≤ 0xDFFF then none
            else parseJStringBody fuel (((utf8EncodeCp cp).reverse) ++ acc) rest1
        | none => none
      else none
  | fuel + 1, acc, b :: rest =>
      if b < 0x20 then none
      else parseJStringBody fuel (b :: acc) rest
  | _ + 1, _, [] => none

/-- Parse a JSON number after an optional minus sign: strict integer part,
optional fraction, optional exponent, folded into an exact decimal. -/
def parseJNumberAbs (neg : Bool) (bs : List Nat) : Option (Json × List Nat) := do
  let (intDigits, r1) ←
    match bs with
    | 0x30 :: rest => some ([0x30], rest)
    | b :: _ =>
        if isDigitByte b && b != 0x30 then takeWhile1 isDigitByte bs else none
    | [] => none
  let (fracDigits, r2) ←
    match r1 with
    | 0x2E :: rest =>
        match takeWhile1 isDigitByte rest with
        | some (ds, r) => some (ds, r)
        | none => none
    | _ => some ([], r1)
  let (expNeg, expDigits, r3) ←
    match r2 with
    | e :: rest =>
        if e == 0x65 || e == 0x45 then
          match rest with
          | 0x2B :: rest1 =>
              match takeWhile1 isDigitByte rest1 with
              | some (ds, r) => some (false, ds, r)
              | none => none
          | 0x2D :: rest1 =>
              match takeWhile1 isDigitByte rest1 with
              | some (ds, r) => some (true, ds, r)
              | none => none
          | _ =>
              match takeWhile1 isDigitByte rest with
              | some (ds, r) => some (false, ds, r)
              | none => none
        else some (false, [], r2)
    | [] => some (false, [], r2)
  let mant10 := digitBytesToNat (intDigits ++ fracDigits)
  let f := fracDigits.length
  let e := digitBytesToNat expDigits
  let d : Dec :=
    if expNeg then ⟨neg, mant10, f + e⟩
    else if e ≥ f then ⟨neg, mant10 * 10 ^ (e - f), 0⟩
    else ⟨neg, mant10, f - e⟩
  some (Json.num d, r3)

mutual

/-- Recursive-descent JSON value parser (leading whitespace skipped),
mirroring `serde_json::from_str`.  The fuel argument makes the recursion
structural; every recursive call consumes at least one byte. -/
def parseJValue : Nat → List Nat → Option (Json × List Nat)
  | 0, _ => none
  | fuel + 1, bs =>
      match skipWs bs with
      | 0x7B :: rest =>
          match skipWs rest with
          | 0x7D :: r => some (Json.obj [], r)
          | _ => do
              let (fields, r) ← parseJMembers fuel rest []
              some (Json.obj fields, r)
      | 0x5B :: rest =>
          match skipWs rest with
          | 0x5D :: r => some (Json.arr [], r)
          | _ => do
              let (xs, r) ← parseJElements fuel rest []
              some (Json.arr xs, r)
      | 0x22 :: rest => do
          let (s, r) ← parseJStringBody (rest.length + 1) [] rest
          some (Json.str s, r)
      | 0x74 :: 0x72 :: 0x75 :: 0x65 :: r => some (Json.bool true, r)
      | 0x66 :: 0x61 :: 0x6C :: 0x73 :: 0x65 :: r => some (Json.bool false, r)
      | 0x6E :: 0x75 :: 0x6C :: 0x6C :: r => some (Json.null, r)
      | 0x2D :: rest => parseJNumberAbs true rest
      | bs1 => parseJNumberAbs false bs1

/-- Members of a JSON object (after the opening brace, at least one member). -/
def parseJMembers : Nat → List Nat → List (List Nat × Json) →
    Option (List (List Nat × Json) × List Nat)
  | 0, _, _ => none
  | fuel + 1, bs, acc =>
      match skipWs bs with
      | 0x22 :: rest => do
          let (key, r1) ← parseJStringBody (rest.length + 1) [] rest
          match skipWs r1 with
          | 0x3A :: r2 => do
              let (v, r3) ← parseJValue fuel r2
              match skipWs r3 with
              | 0x2C :: r4 => parseJMembers fuel r4 (acc ++ [(key, v)])
              | 0x7D :: r4 => some (acc ++ [(key, v)], r4)
              | _ => none
          | _ => none
      | _ => none

/-- Elements of a JSON array (after the opening bracket, at least one). -/
def parseJElements : Nat → List Nat → List Json →
    Option (List Json × List Nat)
  | 0, _, _ => none
  | fuel + 1, bs, acc => do
      let (v, r1) ← parseJValue fuel bs
      match skipWs r1 with
      | 0x2C :: r2 => parseJElements fuel r2 (acc ++ [v])
      | 0x5D :: r2 => some (acc ++ [v], r2)
      | _ => none

end

/-- Model of `serde_json::from_str::<Value>` on bytes: one value, then only
whitespace. -/
def parseJson (bs : List Nat) : Option Json :=
  match parseJValue (bs.length + 1) bs with
  | some (v, rest) => if (skipWs rest).isEmpty then some v else none
  | none => none

/-- Model of `Value::get(key)` on an object: `serde_json`'s map keeps the last
occurrence of a duplicated key. -/
def jget (j : Json) (key : String) : Option Json :=
  match j with
  | .obj fields => (fields.reverse.find? (fun p => p.1 == strBytes key)).map (·.2)
  | _ => none

/-- Model of `Value::as_str`. -/
def jAsStr : Json → Option (List Nat)
  | .str s => some s
  | _ => none

/-- Model of `Value::as_bool`. -/
def jAsBool : Json → Option Bool
  | .bool b => some b
  | _ => none

/-- Model of `Value::as_f64` (exact decimal model). -/
def jAsNum : Json → Option Dec
  | .num d => some d
  | _ => none

/-! ## Parsed upstream response and Anthropic response synthesis — `server.rs` -/

/-- Model of `FunctionCall`. -/
structure FunctionCall where
  name : List Nat
  arguments : List Nat
  deriving Repr, DecidableEq

/-- Model of `ToolCall`. -/
structure ToolCall where
  id : List Nat
  call_type : List Nat
  function : FunctionCall
  deriving Repr, DecidableEq

/-- Model of `CWParsedResponse`. -/
structure CWParsedResponse where
  content : List Nat
  tool_calls : List ToolCall
  usage_credits : Dec
  context_usage_percentage : Dec
  deriving Repr, DecidableEq

/-- Model of `CWParsedResponse::default()`. -/
def CWParsedResponse.empty : CWParsedResponse :=
  { content := [], tool_calls := [], usage_credits := Dec.zero
    context_usage_percentage := Dec.zero }

/-- The output-token estimate both response builders compute:
`content.len() / 4`, then `+= arguments.len() / 4` per tool call
(each division rounds down separately). -/
def getOutputTokens (parsed : CWParsedResponse) : Nat :=
  parsed.tool_calls.foldl (fun acc tc => acc + tc.function.arguments.length / 4)
    (parsed.content.length / 4)

/-- The input-token estimate `((context_usage_percentage / 100.0) * 200000.0)
as u32`: for the exact decimal this is `mant * 2000 / 10^scale`, saturating
at the `u32` bounds as the float-to-int cast does. -/
def getInputTokens (ctx : Dec) : Nat :=
  if ctx.neg then 0
  else min (ctx.mant * 2000 / 10 ^ ctx.scale) (2 ^ 32 - 1)

/-- The `content_block` payload of a `content_block_start` event. -/
inductive StartBlock where
  | text (text : List Nat)
  | tool_use (id : List Nat) (name : List Nat)
  deriving Repr, DecidableEq

/-- The `delta` payload of a `content_block_delta` event. -/
inductive DeltaBody where
  | text_delta (text : List Nat)
  | input_json_delta (pjson : List Nat)
  deriving Repr, DecidableEq

/-- One synthesized Anthropic SSE event, with the fields the synthesizer
fills in. -/
inductive SseEvent where
  | message_start (message_id : List Nat) (model : List Nat) (input_tokens : Nat)
  | content_block_start (index : Nat) (block : StartBlock)
  | content_block_delta (index : Nat) (delta : DeltaBody)
  | content_block_stop (index : Nat)
  | message_delta (stop_reason : List Nat) (output_tokens : Nat)
  | message_stop
  deriving Repr, DecidableEq

/-- Whether an event is a `content_block_delta`. -/
def isContentBlockDelta : SseEvent → Bool
  | .content_block_delta _ _ => true
  | _ => false

/-- The tool-use block loop of `build_anthropic_stream_response`, threading
the mutable `block_index`: per call a `content_block_start` with empty input,
a `content_block_delta` whose `input_json_delta` carries the raw arguments
(`"{}"` substituted when the arguments string is empty), and a
`content_block_stop`. -/
def toolUseBlocks : Nat → List ToolCall → List SseEvent
  | _, [] => []
  | idx, tc :: rest =>
      [SseEvent.content_block_start idx (.tool_use tc.id tc.function.name),
       SseEvent.content_block_delta idx (.input_json_delta
         (if tc.function.arguments.isEmpty then strBytes "\x7b\x7d"
          else tc.function.arguments)),
       SseEvent.content_block_stop idx]
      ++ toolUseBlocks (idx + 1) rest

/-- Model of `build_anthropic_stream_response`, as the ordered event list it emits
(the random message id is an argument). -/
def build_anthropic_stream_response (model message_id : List Nat)
    (parsed : CWParsedResponse) : List SseEvent :=
  let has_tool_calls := !parsed.tool_calls.isEmpty
  let output_tokens := getOutputTokens parsed
  let input_tokens := getInputTokens parsed.context_usage_percentage
  [SseEvent.message_start message_id model input_tokens,
   SseEvent.content_block_start 0 (.text [])]
  ++ (if parsed.content.isEmpty then []
      else [SseEvent.content_block_delta 0 (.text_delta parsed.content)])
  ++ [SseEvent.content_block_stop 0]
  ++ toolUseBlocks 1 parsed.tool_calls
  ++ [SseEvent.message_delta
        (if has_tool_calls then strBytes "tool_use" else strBytes "end_turn")
        output_tokens,
      SseEvent.message_stop]

/-- Model of `usage` of the non-streaming response. -/
structure AnthropicUsage where
  input_tokens : Nat
  output_tokens : Nat
  deriving Repr, DecidableEq

/-- One block of the non-streaming `content` array. -/
inductive AnthropicBlock where
  | text (text : List Nat)
  | tool_use (id : List Nat) (name : List Nat) (input : Json)

/-- The non-streaming Anthropic response body. -/
structure AnthropicResponse where
  message_id : List Nat
  model : List Nat
  content : List AnthropicBlock
  stop_reason : List Nat
  usage : AnthropicUsage

/-- Model of `build_anthropic_response` (the random message id is an argument). -/
def build_anthropic_response (model message_id : List Nat)
    (parsed : CWParsedResponse) : AnthropicResponse :=
  let has_tool_calls := !parsed.tool_calls.isEmpty
  let blocks :=
    (if parsed.content.isEmpty then [] else [AnthropicBlock.text parsed.content])
    ++ parsed.tool_calls.map (fun tc =>
        AnthropicBlock.tool_use tc.id tc.function.name
          ((parseJson tc.function.arguments).getD (Json.obj [])))
  let blocks := if blocks.isEmpty then [AnthropicBlock.text []] else blocks
  { message_id := message_id
    model := model
    content := blocks
    stop_reason := if has_tool_calls then strBytes "tool_use" else strBytes "end_turn"
    usage :=
      { input_tokens := getInputTokens parsed.context_usage_percentage
        output_tokens := getOutputTokens parsed } }

/-! ### Claims about the synthesized responses -/

lemma toolUseBlocks_enumFrom (l : List ToolCall) (n : Nat) :
    toolUseBlocks n l = (l.enumFrom n).flatMap (fun p =>
      [SseEvent.content_block_start p.1 (.tool_use p.2.id p.2.function.name),
       SseEvent.content_block_delta p.1 (.input_json_delta
         (if p.2.function.arguments.isEmpty then strBytes "\x7b\x7d"
          else p.2.function.arguments)),
       SseEvent.content_block_stop p.1]) := by
  induction l generalizing n with
  | nil => rfl
  | cons tc rest ih =>
      simp only [toolUseBlocks, List.enumFrom_cons, List.flatMap_cons, ih]

/-- The parsed response of the C2 counterexample: empty text, no tool
calls. -/
def c2Parsed : CWParsedResponse := CWParsedResponse.empty

/-- Claim **C2 counterexample.** On a response with empty text the synthesizer
emits `message_start`, `content_block_start`, `content_block_stop`,
`message_delta(end_turn)`, `message_stop` — no text `content_block_delta`
at all, against the claim that the full text triplet is always emitted. -/
theorem stream_empty_text_delta_counterexample :
    build_anthropic_stream_response (strBytes "claude-x") (strBytes "msg_1") c2Parsed
      = [SseEvent.message_start (strBytes "msg_1") (strBytes "claude-x") 0,
         SseEvent.content_block_start 0 (.text []),
         SseEvent.content_block_stop 0,
         SseEvent.message_delta (strBytes "end_turn") 0,
         SseEvent.message_stop]
    ∧ (build_anthropic_stream_response (strBytes "claude-x") (strBytes "msg_1")
        c2Parsed).all (fun e => !isContentBlockDelta e) = true := by
  constructor
  · rfl
  · rfl

/-- Claim **C2 (amended).** The synthesizer emits exactly: `message_start`; a text
`content_block_start`; a text `content_block_delta` only when the content is
non-empty; a text `content_block_stop`; per tool call `i` (0-based) a triplet
at block index `i+1` whose `input_json_delta` carries the raw arguments
string (with `"{}"` substituted when that string is empty); a `message_delta`
with stop reason `tool_use` iff there is at least one tool call, else
`end_turn`; and `message_stop`. -/
theorem stream_event_sequence (model message_id : List Nat)
    (parsed : CWParsedResponse) :
    build_anthropic_stream_response model message_id parsed =
      [SseEvent.message_start message_id model
         (getInputTokens parsed.context_usage_percentage),
       SseEvent.content_block_start 0 (.text [])]
      ++ (if parsed.content.isEmpty then []
          else [SseEvent.content_block_delta 0 (.text_delta parsed.content)])
      ++ [SseEvent.content_block_stop 0]
      ++ (parsed.tool_calls.enumFrom 1).flatMap (fun p =>
          [SseEvent.content_block_start p.1 (.tool_use p.2.id p.2.function.name),
           SseEvent.content_block_delta p.1 (.input_json_delta
             (if p.2.function.arguments.isEmpty then strBytes "\x7b\x7d"
              else p.2.function.arguments)),
           SseEvent.content_block_stop p.1])
      ++ [SseEvent.message_delta
            (if parsed.tool_calls.isEmpty then strBytes "end_turn"
             else strBytes "tool_use")
            (getOutputTokens parsed),
          SseEvent.message_stop] := by
  unfold build_anthropic_stream_response
  rw [toolUseBlocks_enumFrom]
  cases h : parsed.tool_calls.isEmpty <;> simp [h]

lemma foldl_add_div (l : List ToolCall) (n : Nat) :
    l.foldl (fun acc tc => acc + tc.function.arguments.length / 4) n
      = n + (l.map (fun tc => tc.function.arguments.length / 4)).sum := by
  induction l generalizing n with
  | nil => simp
  | cons tc rest ih => simp [ih, List.foldl_cons, Nat.add_assoc]

/-- The parsed response of the C9 counterexample: 3 bytes of text and one
tool call with 3 bytes of arguments. -/
def c9Parsed : CWParsedResponse :=
  { content := strBytes "abc"
    tool_calls := [{ id := strBytes "t1", call_type := strBytes "function"
                     function := { name := strBytes "f", arguments := strBytes "xyz" } }]
    usage_credits := Dec.zero
    context_usage_percentage := Dec.zero }

/-- Claim **C9 counterexample.** With 3 bytes of content and one 3-byte arguments
string the code computes `3/4 + 3/4 = 0` output tokens, while the claimed
formula `(3 + 3) / 4` gives 1; both builders carry the code's 0. -/
theorem output_tokens_counterexample :
    getOutputTokens c9Parsed = 0
    ∧ (c9Parsed.content.length
        + (c9Parsed.tool_calls.map (fun tc => tc.function.arguments.length)).sum) / 4
      = 1
    ∧ (build_anthropic_response (strBytes "claude-x") (strBytes "msg_1")
        c9Parsed).usage.output_tokens = 0
    ∧ SseEvent.message_delta (strBytes "tool_use") 0
        ∈ build_anthropic_stream_response (strBytes "claude-x") (strBytes "msg_1")
            c9Parsed := by
  refine ⟨rfl, rfl, rfl, ?_⟩
  decide

/-- Claim **C9 (amended).** The output-token estimate is
`len(content)/4 + Σ (len(args_i)/4)` — each term rounded down separately —
and that value is what the non-streaming usage and the streaming
`message_delta` usage carry. -/
theorem output_tokens_estimate (model message_id : List Nat)
    (parsed : CWParsedResponse) :
    getOutputTokens parsed = parsed.content.length / 4
      + (parsed.tool_calls.map (fun tc => tc.function.arguments.length / 4)).sum
    ∧ (build_anthropic_response model message_id parsed).usage.output_tokens
      = getOutputTokens parsed
    ∧ SseEvent.message_delta
        (if parsed.tool_calls.isEmpty then strBytes "end_turn"
         else strBytes "tool_use")
        (getOutputTokens parsed)
      ∈ build_anthropic_stream_response model message_id parsed := by
  refine ⟨foldl_add_div _ _, rfl, ?_⟩
  rw [stream_event_sequence]
  simp

/-! ## SHA-256 — the hash behind the session fingerprint

A direct executable implementation over byte lists; 32-bit words are `Nat`
with explicit `% 2^32`. -/

/-- Reduce to a 32-bit word. -/
def w32 (x : Nat) : Nat := x % 4294967296

/-- Rotate a 32-bit word right by `n`. -/
def rotr32 (n x : Nat) : Nat := w32 ((x >>> n) ||| (x <<< (32 - n)))

/-- Bitwise complement of a 32-bit word. -/
def not32 (x : Nat) : Nat := x ^^^ 4294967295

/-- The SHA-256 working state. -/
structure Sha8 where
  a : Nat
  b : Nat
  c : Nat
  d : Nat
  e : Nat
  f : Nat
  g : Nat
  h : Nat
  deriving Repr, DecidableEq

/-- SHA-256 initial hash values. -/
def sha256Init : Sha8 :=
  ⟨1779033703, 3144134277, 1013904242, 2773480762,
   1359893119, 2600822924, 528734635, 1541459225⟩

/-- SHA-256 round constants. -/
def sha256K : List Nat :=
  [1116352408, 1899447441, 3049323471, 3921009573,
   961987163, 1508970993, 2453635748, 2870763221,
   3624381080, 310598401, 607225278, 1426881987,
   1925078388, 2162078206, 2614888103, 3248222580,
   3835390401, 4022224774, 264347078, 604807628,
   770255983, 1249150122, 1555081692, 1996064986,
   2554220882, 2821834349, 2952996808, 3210313671,
   3336571891, 3584528711, 113926993, 338241895,
   666307205, 773529912, 1294757372, 1396182291,
   1695183700, 1986661051, 2177026350, 2456956037,
   2730485921, 2820302411, 3259730800, 3345764771,
   3516065817, 3600352804, 4094571909, 275423344,
   430227734, 506948616, 659060556, 883997877,
   958139571, 1322822218, 1537002063, 1747873779,
   1955562222, 2024104815, 2227730452, 2361852424,
   2428436474, 2756734187, 3204031479, 3329325298]

/-- Big-endian bytes of `n`, `count` bytes wide. -/
def natToBytesBE (n count : Nat) : List Nat :=
  (List.range count).map (fun i => n / 2 ^ (8 * (count - 1 - i)) % 256)

/-- Big-endian 32-bit words of a byte list. -/
def bytesToWords : List Nat → List Nat
  | b0 :: b1 :: b2 :: b3 :: rest =>
      (b0 * 16777216 + b1 * 65536 + b2 * 256 + b3) :: bytesToWords rest
  | _ => []

/-- One step of the message-schedule extension. -/
def extendStep (w : List Nat) : List Nat :=
  let n := w.length
  let s0 := rotr32 7 (w.getD (n - 15) 0) ^^^ rotr32 18 (w.getD (n - 15) 0)
    ^^^ (w.getD (n - 15) 0 >>> 3)
  let s1 := rotr32 17 (w.getD (n - 2) 0) ^^^ rotr32 19 (w.getD (n - 2) 0)
    ^^^ (w.getD (n - 2) 0 >>> 10)
  w ++ [w32 (w.getD (n - 16) 0 + s0 + w.getD (n - 7) 0 + s1)]

/-- Extend 16 schedule words to 64. -/
def extendLoop : Nat → List Nat → List Nat
  | 0, w => w
  | k + 1, w => extendLoop k (extendStep w)

/-- One SHA-256 compression round. -/
def sha256Round (st : Sha8) (kw : Nat × Nat) : Sha8 :=
  let s1 := rotr32 6 st.e ^^^ rotr32 11 st.e ^^^ rotr32 25 st.e
  let ch := (st.e &&& st.f) ^^^ (not32 st.e &&& st.g)
  let t1 := w32 (st.h + s1 + ch + kw.1 + kw.2)
  let s0 := rotr32 2 st.a ^^^ rotr32 13 st.a ^^^ rotr32 22 st.a
  let mj := (st.a &&& st.b) ^^^ (st.a &&& st.c) ^^^ (st.b &&& st.c)
  let t2 := w32 (s0 + mj)
  ⟨w32 (t1 + t2), st.a, st.b, st.c, w32 (st.d + t1), st.e, st.f, st.g⟩

/-- Compress one 64-byte block into the running state. -/
def sha256Block (st : Sha8) (block : List Nat) : Sha8 :=
  let w := extendLoop 48 (bytesToWords block)
  let r := (sha256K.zip w).foldl sha256Round st
  ⟨w32 (st.a + r.a), w32 (st.b + r.b), w32 (st.c + r.c), w32 (st.d + r.d),
   w32 (st.e + r.e), w32 (st.f + r.f), w32 (st.g + r.g), w32 (st.h + r.h)⟩

/-- SHA-256 padding: `0x80`, zeros to 56 mod 64, 8-byte big-endian bit
length. -/
def sha256Pad (msg : List Nat) : List Nat :=
  msg ++ [0x80] ++ List.replicate ((119 - msg.length % 64) % 64) 0
    ++ natToBytesBE (msg.length * 8) 8

/-- Split into 64-byte chunks (fuel makes the recursion structural). -/
def chunks64 : Nat → List Nat → List (List Nat)
  | 0, _ => []
  | _ + 1, [] => []
  | fuel + 1, bs => bs.take 64 :: chunks64 fuel (bs.drop 64)

/-- The eight state words in output order. -/
def Sha8.words (st : Sha8) : List Nat :=
  [st.a, st.b, st.c, st.d, st.e, st.f, st.g, st.h]

/-- SHA-256 digest (32 bytes) of a byte list. -/
def sha256 (msg : List Nat) : List Nat :=
  let padded := sha256Pad msg
  let final := (chunks64 padded.length padded).foldl sha256Block sha256Init
  final.words.flatMap (fun wd => natToBytesBE wd 4)

/-- Lowercase hex character of a value below 16 (`f` for anything larger,
which never occurs). -/
def hexDigitChar (n : Nat) : Char :=
  "0123456789abcdef".toList.getD n 'f'

/-- Model of `format!("{:x}")` of a digest: two lowercase hex chars per byte. -/
def hexOfBytes (bs : List Nat) : List Char :=
  bs.flatMap (fun b => [hexDigitChar (b / 16), hexDigitChar (b % 16)])

lemma natToBytesBE_length (n count : Nat) : (natToBytesBE n count).length = count := by
  simp [natToBytesBE]

lemma words_flatMap_length (st : Sha8) :
    (st.words.flatMap (fun wd => natToBytesBE wd 4)).length = 32 := by
  simp [Sha8.words, natToBytesBE_length]

lemma sha256_length (msg : List Nat) : (sha256 msg).length = 32 := by
  unfold sha256
  exact words_flatMap_length _

lemma hexDigitChar_mem (n : Nat) : hexDigitChar n ∈ "0123456789abcdef".toList := by
  unfold hexDigitChar List.getD
  cases h : "0123456789abcdef".toList.get? n with
  | none => decide
  | some c => exact List.get?_mem h

lemma hexOfBytes_mem {c : Char} {bs : List Nat} (h : c ∈ hexOfBytes bs) :
    c ∈ "0123456789abcdef".toList := by
  unfold hexOfBytes at h
  rw [List.mem_flatMap] at h
  obtain ⟨b, _, hc⟩ := h
  simp only [List.mem_cons, List.not_mem_nil, or_false] at hc
  rcases hc with rfl | rfl <;> exact hexDigitChar_mem _

lemma hexOfBytes_length (bs : List Nat) : (hexOfBytes bs).length = 2 * bs.length := by
  induction bs with
  | nil => rfl
  | cons b t ih => simp [hexOfBytes] at ih ⊢; omega

/-! ## Session manager — `session/session_manager.rs` -/

/-- One part of an OpenAI message content array. -/
inductive ContentPart where
  | text (text : String)
  | image_url (url : String)
  deriving Repr, DecidableEq

/-- Model of `MessageContent`. -/
inductive MessageContent where
  | Text (s : String)
  | Parts (parts : List ContentPart)
  deriving Repr, DecidableEq

/-- Model of `ChatMessage` (the tool-call fields are not read by the fingerprint). -/
structure ChatMessage where
  role : String
  content : Option MessageContent
  deriving Repr, DecidableEq

/-- Model of `ChatMessage::get_content_text`: the text, or all text parts joined. -/
def ChatMessage.get_content_text (m : ChatMessage) : String :=
  match m.content with
  | some (.Text s) => s
  | some (.Parts parts) =>
      String.join (parts.filterMap (fun p =>
        match p with
        | .text t => some t
        | _ => none))
  | none => ""

/-- Model of `ChatCompletionRequest` (only the fields the fingerprint reads). -/
structure ChatCompletionRequest where
  model : String
  messages : List ChatMessage
  deriving Repr, DecidableEq

/-- Rust `str::trim` on a `String`. -/
def rustTrimString (s : String) : String :=
  String.mk (rustTrimChars s.toList)

/-- The "meaningful anchor" test of `extract_session_id`: more than 10 bytes
after trimming and no `<system-reminder>` tag. -/
def meaningfulText (clean : String) : Bool :=
  decide ((strBytes clean).length > 10)
    && !(decide (strBytes "<system-reminder>" <:+: strBytes clean))

/-- Model of `SessionManager::extract_session_id`: SHA-256 over the model name and
the first meaningful user message (trimmed); when none exists, over the model
name and the raw text of the last message regardless of role (or the model
name alone when there are no messages); formatted `sid-` plus the first 16
hex chars. -/
def extract_session_id (request : ChatCompletionRequest) : String :=
  let anchor : Option String := request.messages.findSome? (fun msg =>
    if msg.role == "user" then
      let clean := rustTrimString msg.get_content_text
      if meaningfulText clean then some clean else none
    else none)
  let hashInput : List Nat :=
    strBytes request.model ++
    (match anchor with
     | some clean => strBytes clean
     | none =>
        match request.messages.getLast? with
        | some last_msg => strBytes last_msg.get_content_text
        | none => [])
  "sid-" ++ String.mk ((hexOfBytes (sha256 hashInput)).take 16)

lemma findSome?_eq_none_of {α β : Type} (l : List α) (f : α → Option β)
    (h : ∀ x ∈ l, f x = none) : l.findSome? f = none := by
  induction l with
  | nil => rfl
  | cons a t ih =>
      rw [List.findSome?_cons, h a (by simp)]
      exact ih (fun x hx => h x (by simp [hx]))

lemma sid_format (input : List Nat) :
    ("sid-" ++ String.mk ((hexOfBytes (sha256 input)).take 16)).length = 20
    ∧ ("sid-" ++ String.mk ((hexOfBytes (sha256 input)).take 16)).toList.take 4
      = "sid-".toList
    ∧ ∀ c ∈ ("sid-" ++ String.mk ((hexOfBytes (sha256 input)).take 16)).toList.drop 4,
        c ∈ "0123456789abcdef".toList := by
  have hlen : ((hexOfBytes (sha256 input)).take 16).length = 16 := by
    rw [List.length_take, hexOfBytes_length, sha256_length]
    omega
  refine ⟨?_, rfl, ?_⟩
  · show ('s' :: 'i' :: 'd' :: '-' :: (hexOfBytes (sha256 input)).take 16).length = 20
    simp [hlen]
  · intro c hc
    have hx : c ∈ (hexOfBytes (sha256 input)).take 16 := hc
    exact hexOfBytes_mem (List.take_subset _ _ hx)

/-- Claim **C10.** When no user message is meaningful, `extract_session_id` falls
back to hashing the model name followed by the (untrimmed) text of the last
message whatever its role — or the model name alone if there are no
messages — and still returns `sid-` followed by 16 lowercase hex characters
of the SHA-256 digest. -/
theorem session_id_fallback (request : ChatCompletionRequest)
    (h : ∀ m ∈ request.messages, m.role = "user" →
      meaningfulText (rustTrimString m.get_content_text) = false) :
    extract_session_id request
      = "sid-" ++ String.mk ((hexOfBytes (sha256 (strBytes request.model ++
          (match request.messages.getLast? with
           | some last_msg => strBytes last_msg.get_content_text
           | none => [])))).take 16)
    ∧ (extract_session_id request).length = 20
    ∧ (extract_session_id request).toList.take 4 = "sid-".toList
    ∧ ∀ c ∈ (extract_session_id request).toList.drop 4,
        c ∈ "0123456789abcdef".toList := by
  have hnone : request.messages.findSome? (fun msg =>
      if msg.role == "user" then
        let clean := rustTrimString msg.get_content_text
        if meaningfulText clean then some clean else none
      else none) = none := by
    apply findSome?_eq_none_of
    intro m hm
    by_cases hr : m.role = "user"
    · rw [if_pos (by simpa using hr), if_neg]
      simp [h m hm hr]
    · rw [if_neg (by simpa using hr)]
  have hmain : extract_session_id request
      = "sid-" ++ String.mk ((hexOfBytes (sha256 (strBytes request.model ++
          (match request.messages.getLast? with
           | some last_msg => strBytes last_msg.get_content_text
           | none => [])))).take 16) := by
    unfold extract_session_id
    rw [hnone]
  refine ⟨hmain, ?_, ?_, ?_⟩
  · rw [hmain]; exact (sid_format _).1
  · rw [hmain]; exact (sid_format _).2.1
  · rw [hmain]; exact (sid_format _).2.2

/-- Concrete request for the C10 witness: its only user message is two bytes
long after trimming, hence not meaningful. -/
def c10Request : ChatCompletionRequest :=
  { model := "gpt-4"
    messages := [{ role := "user", content := some (.Text "hi") }] }

/-- Claim **C10 witness**: the theorem applied to `c10Request`. -/
theorem session_id_fallback_witness :
    (∀ m ∈ c10Request.messages, m.role = "user" →
      meaningfulText (rustTrimString m.get_content_text) = false)
    ∧ (extract_session_id c10Request).length = 20 :=
  ⟨by decide, (session_id_fallback c10Request (by decide)).2.1⟩

/-! ## Event-stream parser — `parse_cw_response` in `server.rs` -/

/-- Model of `find_subsequence`: first index of `needle` in `haystack`. -/
def find_subsequence : List Nat → List Nat → Option Nat
  | [], needle => if needle.isEmpty then some 0 else none
  | b :: t, needle =>
      if (b :: t).length < needle.length then none
      else if (b :: t).take needle.length == needle then some 0
      else (find_subsequence t needle).map (· + 1)

/-- The loop of `extract_json_from_bytes`: brace counting that respects
string literals and backslash escapes; returns the end offset. -/
def extractJsonLoop : List Nat → Nat → Int → Bool → Bool → Option Nat
  | [], _, _, _, _ => none
  | b :: rest, i, count, inStr, esc =>
      if esc then extractJsonLoop rest (i + 1) count inStr false
      else if b == 92 && inStr then extractJsonLoop rest (i + 1) count inStr true
      else if b == 34 then extractJsonLoop rest (i + 1) count (!inStr) false
      else if b == 123 && !inStr then extractJsonLoop rest (i + 1) (count + 1) inStr false
      else if b == 125 && !inStr then
        if count - 1 = 0 then some (i + 1)
        else extractJsonLoop rest (i + 1) (count - 1) inStr false
      else extractJsonLoop rest (i + 1) count inStr false

/-- Model of `extract_json_from_bytes`: a balanced JSON object prefix, or `none` when
the input does not start with `{`.  (The source re-validates the slice as
UTF-8; on its `&str` inputs, a slice between ASCII braces is always valid, so
the validation never fails and is omitted here.) -/
def extract_json_from_bytes (bytes : List Nat) : Option (List Nat) :=
  match bytes with
  | 123 :: _ => (extractJsonLoop bytes 0 0 false false).map (fun e => bytes.take e)
  | _ => none

/-- Lookup in an association list with byte-list keys. -/
def blookup {α : Type} (k : List Nat) (l : List (List Nat × α)) : Option α :=
  (l.find? (fun p => p.1 == k)).map (·.2)

/-- Model of `HashMap` upsert, modelled on an insertion-ordered association list. -/
def mapUpsert {α : Type} (k : List Nat) (v : α) (l : List (List Nat × α)) :
    List (List Nat × α) :=
  if (l.find? (fun p => p.1 == k)).isSome then
    l.map (fun p => if p.1 == k then (k, v) else p)
  else l ++ [(k, v)]

/-- Model of `HashMap` removal. -/
def mapRemove {α : Type} (k : List Nat) (l : List (List Nat × α)) :
    List (List Nat × α) :=
  l.filter (fun p => !(p.1 == k))

/-- The scan state: the response being built and the in-progress tool-call
map `toolUseId ↦ (name, accumulated input)`.  The source uses a `HashMap`
with arbitrary iteration order; the model keeps insertion order. -/
structure CWScanState where
  result : CWParsedResponse
  tool_map : List (List Nat × (List Nat × List Nat))
  deriving Repr, DecidableEq

/-- The initial scan state. -/
def CWScanState.init : CWScanState := ⟨CWParsedResponse.empty, []⟩

/-- The tool-use branch of the payload dispatch: update the entry's name (if
the payload carries a non-empty one), append to its arguments buffer, and on
`stop:true` remove it from the map, emitting a `ToolCall` only when the
accumulated name is non-empty. -/
def processToolUse (st : CWScanState) (tool_use_id name input_chunk : List Nat)
    (is_stop : Bool) : CWScanState :=
  let entry := (blookup tool_use_id st.tool_map).getD ([], [])
  let entry1 : List Nat × List Nat :=
    (if !name.isEmpty then name else entry.1, entry.2 ++ input_chunk)
  let m1 := mapUpsert tool_use_id entry1 st.tool_map
  if is_stop then
    let m2 := mapRemove tool_use_id m1
    if !entry1.1.isEmpty then
      { result := { st.result with tool_calls := st.result.tool_calls ++
          [{ id := tool_use_id, call_type := strBytes "function",
             function := { name := entry1.1, arguments := entry1.2 } }] }
        tool_map := m2 }
    else { st with tool_map := m2 }
  else { st with tool_map := m1 }

/-- Dispatch one extracted JSON payload, mirroring the if/else-if chain of
the source. -/
def processCwValue (st : CWScanState) (value : Json) : CWScanState :=
  match (jget value "content").bind jAsStr with
  | some content =>
      if (jget value "followupPrompt").isNone then
        { st with result := { st.result with
            content := st.result.content ++ content } }
      else st
  | none =>
      match (jget value "toolUseId").bind jAsStr with
      | some tool_use_id =>
          let name := ((jget value "name").bind jAsStr).getD []
          let input_chunk := ((jget value "input").bind jAsStr).getD []
          let is_stop := ((jget value "stop").bind jAsBool).getD false
          processToolUse st tool_use_id name input_chunk is_stop
      | none =>
          if ((jget value "stop").bind jAsBool).getD false then st
          else
            match (jget value "usage").bind jAsNum with
            | some usage =>
                { st with result := { st.result with usage_credits := usage } }
            | none =>
                match (jget value "contextUsagePercentage").bind jAsNum with
                | some ctx =>
                    { st with result := { st.result with
                        context_usage_percentage := ctx } }
                | none => st

/-- The eight JSON field-start patterns the scanner searches for. -/
def cwJsonPatterns : List (List Nat) :=
  [strBytes "\x7b\"content\":", strBytes "\x7b\"name\":",
   strBytes "\x7b\"input\":", strBytes "\x7b\"stop\":",
   strBytes "\x7b\"followupPrompt\":", strBytes "\x7b\"toolUseId\":",
   strBytes "\x7b\"unit\":", strBytes "\x7b\"contextUsagePercentage\":"]

/-- The earliest pattern occurrence at or after `pos`. -/
def nextPatternStart (bytes : List Nat) (pos : Nat) : Option Nat :=
  cwJsonPatterns.foldl (fun acc pat =>
    match find_subsequence (bytes.drop pos) pat with
    | some idx =>
        let abs_pos := pos + idx
        match acc with
        | some start => if abs_pos < start then some abs_pos else acc
        | none => some abs_pos
    | none => acc) none

/-- The scan loop of `parse_cw_response`: find the next payload, extract a
balanced object, dispatch it, advance.  Fuel makes the recursion structural;
the position strictly increases, so fuel `bytes.length + 1` never runs
out. -/
def cwScanLoop : Nat → List Nat → Nat → CWScanState → CWScanState
  | 0, _, _, st => st
  | fuel + 1, bytes, pos, st =>
      if pos < bytes.length then
        match nextPatternStart bytes pos with
        | none => st
        | some start =>
            match extract_json_from_bytes (bytes.drop start) with
            | some json_bytes =>
                let st1 :=
                  match parseJson json_bytes with
                  | some value => processCwValue st value
                  | none => st
                cwScanLoop fuel bytes (start + json_bytes.length) st1
            | none => cwScanLoop fuel bytes (start + 1) st
      else st

/-- The end-of-scan flush: every pending tool call with a non-empty name is
emitted as-is (map iteration order modelled as insertion order). -/
def flushPending (st : CWScanState) : CWParsedResponse :=
  let flushedCalls := (st.tool_map.filter (fun p => !p.2.1.isEmpty)).map
    (fun p => ({ id := p.1, call_type := strBytes "function",
                 function := { name := p.2.1, arguments := p.2.2 } } : ToolCall))
  { st.result with tool_calls := st.result.tool_calls ++ flushedCalls }

/-! ### The bracket-form tool-call regex

`\[Called\s+(\w+)\s+with\s+args:\s*(\{[^}]*(?:\{[^}]*\}[^}]*)*\})\]`, matched
with the regex crate's leftmost-first (greedy, Perl-like) preference.  All
adjacent pieces except the args group are deterministic under maximal munch
(`\s`, `\w` and the following literals are disjoint); the args group needs
genuine backtracking against the trailing `\]`.  The model restricts `\s`
and `\w` to their ASCII fragments; no claim depends on non-ASCII text around
bracket calls. -/

/-- ASCII word byte (`\w`). -/
def isWordByte (b : Nat) : Bool :=
  (0x30 ≤ b && b ≤ 0x39) || (0x41 ≤ b && b ≤ 0x5A)
    || (0x61 ≤ b && b ≤ 0x7A) || b == 0x5F

/-- ASCII whitespace byte (`\s`). -/
def isWsByte (b : Nat) : Bool :=
  b == 0x20 || b == 0x09 || b == 0x0A || b == 0x0B || b == 0x0C || b == 0x0D

/-- Match a literal byte sequence, returning the remainder. -/
def matchLit : List Nat → List Nat → Option (List Nat)
  | [], bs => some bs
  | p :: ps, b :: bs => if p == b then matchLit ps bs else none
  | _ :: _, [] => none

/-- The backtracking choices of a greedy `[^}]*`: remainders after consuming
the maximal non-`}` run first, then shorter and shorter prefixes. -/
def starSplits (bs : List Nat) : List (List Nat) :=
  let n := (bs.takeWhile (fun b => !(b == 125))).length
  (List.range (n + 1)).map (fun i => bs.drop (n - i))

/-- Greedy `(?:\{[^}]*\}[^}]*)*` followed by the continuation `k`:
prefer one more iteration, fall back to exiting the star. -/
def matchIters : Nat → List Nat → (List Nat → Option (List Nat)) →
    Option (List Nat)
  | 0, _, _ => none
  | fuel + 1, bs, k =>
      let tryIter : Option (List Nat) :=
        match bs with
        | 123 :: t2 =>
            let consumed := t2.takeWhile (fun b => !(b == 125))
            match t2.drop consumed.length with
            | 125 :: t3 => (starSplits t3).findSome? (fun rest => matchIters fuel rest k)
            | _ => none
        | _ => none
      match tryIter with
      | some r => some r
      | none => k bs

/-- The args capture group `\{[^}]*(?:\{[^}]*\}[^}]*)*\}` followed by the
continuation `k`; returns what `k` returns on the remainder after the
closing brace. -/
def matchArgsGroup (bs : List Nat) (k : List Nat → Option (List Nat)) :
    Option (List Nat) :=
  match bs with
  | 123 :: t =>
      (starSplits t).findSome? (fun rest1 =>
        matchIters (bs.length + 1) rest1 (fun rest2 =>
          match rest2 with
          | 125 :: r => k r
          | _ => none))
  | _ => none

/-- Try the whole bracket pattern anchored at `bs`: on success the captured
name and args, and the remainder after the closing `]`. -/
def matchBracketAt (bs : List Nat) :
    Option (List Nat × List Nat × List Nat) :=
  match matchLit (strBytes "[Called") bs with
  | none => none
  | some r1 =>
  match takeWhile1 isWsByte r1 with
  | none => none
  | some (_, r2) =>
  match takeWhile1 isWordByte r2 with
  | none => none
  | some (name, r3) =>
  match takeWhile1 isWsByte r3 with
  | none => none
  | some (_, r4) =>
  match matchLit (strBytes "with") r4 with
  | none => none
  | some r5 =>
  match takeWhile1 isWsByte r5 with
  | none => none
  | some (_, r6) =>
  match matchLit (strBytes "args:") r6 with
  | none => none
  | some r7 =>
  match matchArgsGroup (r7.dropWhile isWsByte) (fun rest =>
    if rest.head? == some 93 then some rest else none) with
  | none => none
  | some restAtBracket =>
      let argsStart := r7.dropWhile isWsByte
      some (name, argsStart.take (argsStart.length - restAtBracket.length),
        restAtBracket.drop 1)

/-- Model of `captures_iter`: scan left to right, taking non-overlapping matches;
yields `(full match, name, args)` triples in order. -/
def bracketScan : Nat → List Nat → List (List Nat × List Nat × List Nat)
  | 0, _ => []
  | _ + 1, [] => []
  | fuel + 1, b :: t =>
      match matchBracketAt (b :: t) with
      | some (name, args, rest) =>
          ((b :: t).take ((b :: t).length - rest.length), name, args)
            :: bracketScan fuel rest
      | none => bracketScan fuel t

/-- Model of `str::replace(pat, "")`: remove all non-overlapping occurrences, left to
right (fuel-structural; the patterns used are never empty). -/
def removeAll : Nat → List Nat → List Nat → List Nat
  | 0, hay, _ => hay
  | _ + 1, [], _ => []
  | fuel + 1, b :: t, pat =>
      if pat.isEmpty then b :: t
      else if (b :: t).take pat.length == pat then
        removeAll fuel ((b :: t).drop pat.length) pat
      else b :: removeAll fuel t pat

/-- Model of `parse_bracket_tool_calls`: lift every bracket-form match into the
tool-call list with a synthesized id (the random ids are supplied by `ids`),
remove the matched text from the content, and trim it. -/
def parse_bracket_tool_calls (resp : CWParsedResponse) (ids : Nat → List Nat) :
    CWParsedResponse :=
  let caps := bracketScan (resp.content.length + 1) resp.content
  let newCalls := caps.enum.map (fun p =>
    ({ id := ids p.1, call_type := strBytes "function",
       function := { name := p.2.2.1, arguments := p.2.2.2 } } : ToolCall))
  let to_remove := caps.map (·.1)
  let content1 := to_remove.foldl (fun c s => removeAll (c.length + 1) c s)
    resp.content
  { resp with
    content := rustTrimBytes content1
    tool_calls := resp.tool_calls ++ newCalls }

/-- Model of `parse_cw_response` (the synthesized bracket-call ids are an input). -/
def parse_cw_response (body : String) (ids : Nat → List Nat) : CWParsedResponse :=
  let bytes := strBytes body
  let st := cwScanLoop (bytes.length + 1) bytes 0 CWScanState.init
  parse_bracket_tool_calls (flushPending st) ids

/-! ### Claims about the event-stream parser -/

/-- Every call in the list has a non-empty name. -/
def namedCalls (l : List ToolCall) : Prop :=
  ∀ tc ∈ l, tc.function.name ≠ []

lemma namedCalls_nil : namedCalls [] := by
  intro tc h
  cases h

lemma namedCalls_append {l1 l2 : List ToolCall} (h1 : namedCalls l1)
    (h2 : namedCalls l2) : namedCalls (l1 ++ l2) := by
  intro tc h
  rcases List.mem_append.mp h with h | h
  · exact h1 tc h
  · exact h2 tc h

lemma namedCalls_singleton {tc : ToolCall} (h : tc.function.name ≠ []) :
    namedCalls [tc] := by
  intro x hx
  rcases List.mem_singleton.mp hx with rfl
  exact h

lemma namedCalls_processToolUse (st : CWScanState)
    (i n inp : List Nat) (s : Bool)
    (h : namedCalls st.result.tool_calls) :
    namedCalls (processToolUse st i n inp s).result.tool_calls := by
  unfold processToolUse
  cases s with
  | false => exact h
  | true =>
      dsimp only
      by_cases h1 : (!n.isEmpty) = true
      · rw [if_pos h1, if_pos h1]
        refine namedCalls_append h (namedCalls_singleton ?_)
        intro hc
        have hn : n = [] := hc
        simp [hn] at h1
      · rw [if_neg h1]
        by_cases h2 : (!((blookup i st.tool_map).getD ([], [])).1.isEmpty) = true
        · rw [if_pos h2]
          refine namedCalls_append h (namedCalls_singleton ?_)
          intro hc
          have hn : ((blookup i st.tool_map).getD ([], [])).1 = [] := hc
          simp [hn] at h2
        · rw [if_neg h2]
          exact h

lemma namedCalls_processCwValue (st : CWScanState) (v : Json)
    (h : namedCalls st.result.tool_calls) :
    namedCalls (processCwValue st v).result.tool_calls := by
  unfold processCwValue
  cases (jget v "content").bind jAsStr with
  | some content =>
      dsimp only
      split <;> exact h
  | none =>
      dsimp only
      cases (jget v "toolUseId").bind jAsStr with
      | some i => exact namedCalls_processToolUse st i _ _ _ h
      | none =>
          dsimp only
          split
          · exact h
          · cases (jget v "usage").bind jAsNum with
            | some u => exact h
            | none =>
                dsimp only
                cases (jget v "contextUsagePercentage").bind jAsNum with
                | some c => exact h
                | none => exact h

lemma namedCalls_cwScanLoop (fuel : Nat) (bytes : List Nat) (pos : Nat)
    (st : CWScanState) (h : namedCalls st.result.tool_calls) :
    namedCalls (cwScanLoop fuel bytes pos st).result.tool_calls := by
  induction fuel generalizing pos st with
  | zero => exact h
  | succ fuel ih =>
      unfold cwScanLoop
      split
      · cases nextPatternStart bytes pos with
        | none => exact h
        | some start =>
            dsimp only
            cases extract_json_from_bytes (bytes.drop start) with
            | some json_bytes =>
                dsimp only
                apply ih
                cases parseJson json_bytes with
                | some v => exact namedCalls_processCwValue st v h
                | none => exact h
            | none => exact ih _ _ h
      · exact h

lemma namedCalls_flushPending (st : CWScanState)
    (h : namedCalls st.result.tool_calls) :
    namedCalls (flushPending st).tool_calls := by
  unfold flushPending
  dsimp only
  apply namedCalls_append h
  intro tc htc
  rw [List.mem_map] at htc
  obtain ⟨p, hp, rfl⟩ := htc
  have hne := (List.mem_filter.mp hp).2
  dsimp only
  intro hc
  rw [hc] at hne
  simp at hne

lemma takeWhile1_ne_nil {p : Nat → Bool} {bs t r : List Nat}
    (h : takeWhile1 p bs = some (t, r)) : t ≠ [] := by
  unfold takeWhile1 at h
  dsimp only at h
  split at h
  · exact absurd h (by simp)
  · rename_i hne
    injection h with h1
    have ht : bs.takeWhile p = t := congrArg Prod.fst h1
    intro hc
    apply hne
    rw [ht, hc]
    rfl

lemma matchBracketAt_name_ne_nil {bs name args rest : List Nat}
    (h : matchBracketAt bs = some (name, args, rest)) : name ≠ [] := by
  unfold matchBracketAt at h
  cases e1 : matchLit (strBytes "[Called") bs with
  | none => rw [e1] at h; simp at h
  | some r1 =>
  rw [e1] at h
  (try dsimp only at h)
  cases e2 : takeWhile1 isWsByte r1 with
  | none => rw [e2] at h; simp at h
  | some pr2 =>
  rw [e2] at h
  (try dsimp only at h)
  obtain ⟨w1, r2⟩ := pr2
  cases e3 : takeWhile1 isWordByte r2 with
  | none => rw [e3] at h; simp at h
  | some pr3 =>
  rw [e3] at h
  (try dsimp only at h)
  obtain ⟨nm, r3⟩ := pr3
  have hnm := takeWhile1_ne_nil e3
  cases e4 : takeWhile1 isWsByte r3 with
  | none => rw [e4] at h; simp at h
  | some pr4 =>
  rw [e4] at h
  (try dsimp only at h)
  obtain ⟨w2, r4⟩ := pr4
  cases e5 : matchLit (strBytes "with") r4 with
  | none => rw [e5] at h; simp at h
  | some r5 =>
  rw [e5] at h
  (try dsimp only at h)
  cases e6 : takeWhile1 isWsByte r5 with
  | none => rw [e6] at h; simp at h
  | some pr6 =>
  rw [e6] at h
  (try dsimp only at h)
  obtain ⟨w3, r6⟩ := pr6
  cases e7 : matchLit (strBytes "args:") r6 with
  | none => rw [e7] at h; simp at h
  | some r7 =>
  rw [e7] at h
  (try dsimp only at h)
  cases e8 : matchArgsGroup (r7.dropWhile isWsByte) (fun rest =>
      if rest.head? == some 93 then some rest else none) with
  | none => rw [e8] at h; simp at h
  | some restAtBracket =>
  rw [e8] at h
  (try dsimp only at h)
  (try dsimp only at h)
  injection h with h1
  simp only [Prod.mk.injEq] at h1
  obtain ⟨h1a, -⟩ := h1
  rw [← h1a]
  exact hnm

lemma mem_enumFrom_snd {α : Type} :
    ∀ {l : List α} {n : Nat} {p : Nat × α}, p ∈ l.enumFrom n → p.2 ∈ l := by
  intro l
  induction l with
  | nil => intro n p h; cases h
  | cons a t ih =>
      intro n p h
      rw [List.enumFrom_cons] at h
      rcases List.mem_cons.mp h with rfl | h2
      · exact List.mem_cons_self _ _
      · exact List.mem_cons_of_mem _ (ih h2)

lemma bracketScan_name_ne_nil :
    ∀ (fuel : Nat) (bs : List Nat), ∀ trip ∈ bracketScan fuel bs,
      trip.2.1 ≠ [] := by
  intro fuel
  induction fuel with
  | zero => intro bs trip h; cases h
  | succ fuel ih =>
      intro bs trip h
      cases bs with
      | nil => cases h
      | cons b t =>
          unfold bracketScan at h
          cases e : matchBracketAt (b :: t) with
          | none =>
              rw [e] at h
              exact ih t trip h
          | some res =>
              rw [e] at h
              obtain ⟨nm, args, rest⟩ := res
              dsimp only at h
              rcases List.mem_cons.mp h with rfl | h2
              · exact matchBracketAt_name_ne_nil e
              · exact ih rest trip h2

lemma namedCalls_parse_bracket (resp : CWParsedResponse) (ids : Nat → List Nat)
    (h : namedCalls resp.tool_calls) :
    namedCalls (parse_bracket_tool_calls resp ids).tool_calls := by
  unfold parse_bracket_tool_calls
  dsimp only
  apply namedCalls_append h
  intro tc htc
  rw [List.mem_map] at htc
  obtain ⟨p, hp, rfl⟩ := htc
  dsimp only
  exact bracketScan_name_ne_nil _ _ _ (mem_enumFrom_snd hp)

/-- Claim **C8.** The tool-call discipline of the event-stream parser: empty input
parses to the empty response; every tool call that reaches the output list
has a non-empty name; a `stop:true` payload finalizes the call — removing it
from the pending map and appending it to the output iff its accumulated name
is non-empty (so a never-named call is silently dropped); and at end of
input every pending call with a non-empty name is flushed as-is.  Two closed
instances run the full parser: a named call is finalized with its
accumulated arguments, an unnamed one vanishes. -/
theorem parse_cw_tool_call_discipline :
    (∀ ids, parse_cw_response "" ids = CWParsedResponse.empty)
    ∧ (∀ body ids, ∀ tc ∈ (parse_cw_response body ids).tool_calls,
        tc.function.name ≠ [])
    ∧ (∀ (st : CWScanState) (i n inp : List Nat),
        (processToolUse st i n inp true).result.tool_calls
          = (if !(if !n.isEmpty then n
                  else ((blookup i st.tool_map).getD ([], [])).1).isEmpty
             then st.result.tool_calls ++
               [{ id := i, call_type := strBytes "function",
                  function :=
                    { name := if !n.isEmpty then n
                        else ((blookup i st.tool_map).getD ([], [])).1,
                      arguments :=
                        ((blookup i st.tool_map).getD ([], [])).2 ++ inp } }]
             else st.result.tool_calls)
        ∧ (processToolUse st i n inp true).tool_map
          = mapRemove i (mapUpsert i
              ((if !n.isEmpty then n
                else ((blookup i st.tool_map).getD ([], [])).1),
               ((blookup i st.tool_map).getD ([], [])).2 ++ inp) st.tool_map))
    ∧ (∀ st : CWScanState,
        (flushPending st).tool_calls = st.result.tool_calls ++
          (st.tool_map.filter (fun p => !p.2.1.isEmpty)).map
            (fun p => { id := p.1, call_type := strBytes "function",
                        function := { name := p.2.1, arguments := p.2.2 } }))
    ∧ (∀ ids, parse_cw_response
        "\x7b\"toolUseId\":\"t1\",\"name\":\"get\",\"input\":\"\"\x7d\x7b\"toolUseId\":\"t1\",\"input\":\"zz\",\"stop\":true\x7d"
        ids
        = { content := [],
            tool_calls := [{ id := strBytes "t1",
                             call_type := strBytes "function",
                             function := { name := strBytes "get",
                                           arguments := strBytes "zz" } }],
            usage_credits := Dec.zero, context_usage_percentage := Dec.zero })
    ∧ (∀ ids, parse_cw_response
        "\x7b\"toolUseId\":\"t2\",\"input\":\"zz\",\"stop\":true\x7d" ids
        = CWParsedResponse.empty) := by
  refine ⟨fun ids => rfl, ?_, ?_, fun st => rfl, fun ids => rfl, fun ids => rfl⟩
  · intro body ids
    unfold parse_cw_response
    exact namedCalls_parse_bracket _ ids
      (namedCalls_flushPending _
        (namedCalls_cwScanLoop _ _ _ _ namedCalls_nil))
  · intro st i n inp
    unfold processToolUse
    dsimp only
    by_cases h1 : (!n.isEmpty) = true
    · simp only [if_pos h1]
      exact ⟨rfl, rfl⟩
    · simp only [if_neg h1]
      by_cases h2 : (!((blookup i st.tool_map).getD ([], [])).1.isEmpty) = true
      · simp only [if_pos h2]
        exact ⟨rfl, rfl⟩
      · simp only [if_neg h2]
        exact ⟨rfl, rfl⟩

/-- Claim **C8 witness**: the nonempty-name guarantee applied to a concrete
finalized call. -/
theorem parse_cw_tool_call_discipline_witness :
    ({ id := strBytes "t1", call_type := strBytes "function",
       function := { name := strBytes "get", arguments := strBytes "zz" } } : ToolCall)
      ∈ (parse_cw_response
          "\x7b\"toolUseId\":\"t1\",\"name\":\"get\",\"input\":\"\"\x7d\x7b\"toolUseId\":\"t1\",\"input\":\"zz\",\"stop\":true\x7d"
          (fun _ => [])).tool_calls
    ∧ ({ id := strBytes "t1", call_type := strBytes "function",
         function := { name := strBytes "get", arguments := strBytes "zz" } } : ToolCall).function.name
        ≠ [] :=
  ⟨by decide, parse_cw_tool_call_discipline.2.1
    "\x7b\"toolUseId\":\"t1\",\"name\":\"get\",\"input\":\"\"\x7d\x7b\"toolUseId\":\"t1\",\"input\":\"zz\",\"stop\":true\x7d"
    (fun _ => [])
    { id := strBytes "t1", call_type := strBytes "function",
      function := { name := strBytes "get", arguments := strBytes "zz" } }
    (by decide)⟩

/-! ## The Kiro arm of `call_provider_anthropic` — `server.rs`

The external calls (token cache, credential file, upstream HTTP) are
abstracted as their outcomes, carried in an environment record; the function
below reproduces the branch structure of the source and returns the response
together with the ordered list of credential-store effects it fires. -/

/-- An upstream HTTP response: status, and the outcome of reading its
body. -/
structure UpstreamResponse where
  status : Nat
  body : Except String String
  deriving Repr

/-- The outcomes of the external calls one `call_provider_anthropic`
invocation can make on the Kiro path. -/
structure KiroCallEnv where
  db_available : Bool
  token_cache_result : Except String String
  fallback_load_result : Except String Unit
  fallback_refresh_result : Except String Unit
  fallback_token : String
  first_call : Except String UpstreamResponse
  forced_refresh_result : Except String String
  retry_call : Except String UpstreamResponse
  message_id : List Nat
  bracket_ids : Nat → List Nat

/-- A credential-store effect fired by the pipeline. -/
inductive PoolEffect where
  | markHealthy (uuid : String) (check_model : Option String)
  | markUnhealthy (uuid : String) (message : String)
  | recordUsage (uuid : String)
  deriving Repr, DecidableEq

/-- The response returned to the client (bodies abstracted to the data the
claims mention). -/
inductive ServerResponse where
  | jsonError (status : Nat) (message : String)
  | anthropicStream (events : List SseEvent)
  | anthropicJson (resp : AnthropicResponse)

/-- Build the success response from an upstream body, as the source does:
parse the event stream, then synthesize the Anthropic response in the
requested shape. -/
def buildKiroSuccess (env : KiroCallEnv) (request_model : String)
    (request_stream : Bool) (body : String) : ServerResponse :=
  let parsed := parse_cw_response body env.bracket_ids
  if request_stream then
    .anthropicStream
      (build_anthropic_stream_response (strBytes request_model) env.message_id parsed)
  else
    .anthropicJson
      (build_anthropic_response (strBytes request_model) env.message_id parsed)

/-- Model of `reqwest::StatusCode::is_success`. -/
def isSuccessStatus (s : Nat) : Bool := 200 ≤ s && s ≤ 299

/-- The `CredentialData::KiroOAuth` arm of `call_provider_anthropic`:
token acquisition (with the load-and-refresh fallback), the upstream call,
the forced-refresh-and-retry on 401/403, and the health/usage effects of
every branch. -/
def call_provider_anthropic_kiro (env : KiroCallEnv) (uuid : String)
    (request_model : String) (request_stream : Bool) :
    ServerResponse × List PoolEffect :=
  if !env.db_available then
    (.jsonError 500 "Database not available", [])
  else
    let tokenStep : Except (ServerResponse × List PoolEffect) String :=
      match env.token_cache_result with
      | .ok t => .ok t
      | .error _ =>
          match env.fallback_load_result with
          | .error e =>
              .error (.jsonError 500 ("Failed to load Kiro credentials: " ++ e),
                [.markUnhealthy uuid ("Failed to load credentials: " ++ e)])
          | .ok _ =>
              match env.fallback_refresh_result with
              | .error e =>
                  .error (.jsonError 401 ("Token refresh failed: " ++ e),
                    [.markUnhealthy uuid ("Token refresh failed: " ++ e)])
              | .ok _ => .ok env.fallback_token
    match tokenStep with
    | .error r => r
    | .ok _token =>
    match env.first_call with
    | .error e => (.jsonError 500 e, [.markUnhealthy uuid e])
    | .ok resp =>
        if isSuccessStatus resp.status then
          match resp.body with
          | .ok body =>
              (buildKiroSuccess env request_model request_stream body,
               [.markHealthy uuid (some request_model), .recordUsage uuid])
          | .error e => (.jsonError 500 e, [.markUnhealthy uuid e])
        else if resp.status == 401 || resp.status == 403 then
          match env.forced_refresh_result with
          | .error e =>
              (.jsonError 401 ("Token refresh failed: " ++ e),
               [.markUnhealthy uuid ("Token refresh failed: " ++ e)])
          | .ok _new_token =>
              match env.retry_call with
              | .error e => (.jsonError 500 e, [.markUnhealthy uuid e])
              | .ok retry_resp =>
                  if isSuccessStatus retry_resp.status then
                    match retry_resp.body with
                    | .ok body =>
                        (buildKiroSuccess env request_model request_stream body,
                         [.markHealthy uuid (some request_model), .recordUsage uuid])
                    | .error e => (.jsonError 500 e, [.markUnhealthy uuid e])
                  else
                    let body := (match retry_resp.body with
                      | .ok b => b
                      | .error _ => "")
                    (.jsonError 500 ("Retry failed: " ++ body),
                     [.markUnhealthy uuid ("Retry failed: " ++ body)])
        else
          let body := (match resp.body with
            | .ok b => b
            | .error _ => "")
          (.jsonError 500 body, [.markUnhealthy uuid body])

/-- The environment of the C3 counterexample: a healthy token cache, a 401
from upstream, and a failing forced refresh. -/
def c3Env : KiroCallEnv :=
  { db_available := true
    token_cache_result := .ok "tok"
    fallback_load_result := .ok ()
    fallback_refresh_result := .ok ()
    fallback_token := ""
    first_call := .ok { status := 401, body := .ok "" }
    forced_refresh_result := .error "boom"
    retry_call := .ok { status := 200, body := .ok "" }
    message_id := []
    bracket_ids := fun _ => [] }

/-- Claim **C3 counterexample.** When the forced refresh after a 401 fails, the
code does surface 401 — but it also fires a `mark_unhealthy` on the
credential, bumping its error count, against the claim that the count is
left alone. -/
theorem forced_refresh_counterexample :
    (call_provider_anthropic_kiro c3Env "cred-1" "claude-x" false).1
      = ServerResponse.jsonError 401 "Token refresh failed: boom"
    ∧ (call_provider_anthropic_kiro c3Env "cred-1" "claude-x" false).2
      = [PoolEffect.markUnhealthy "cred-1" "Token refresh failed: boom"] :=
  ⟨rfl, rfl⟩

/-- Claim **C3 (amended).** When the upstream answers 401 or 403 and the forced
token refresh fails, the pipeline surfaces a 401 response and fires exactly
one credential effect: a `mark_unhealthy` (which bumps the error count) with
the refresh failure message. -/
theorem forced_refresh_failure_spec (env : KiroCallEnv) (uuid model : String)
    (stream : Bool) (tok : String) (resp : UpstreamResponse) (e : String)
    (hdb : env.db_available = true)
    (htok : env.token_cache_result = .ok tok)
    (hcall : env.first_call = .ok resp)
    (hstatus : resp.status = 401 ∨ resp.status = 403)
    (hrefresh : env.forced_refresh_result = .error e) :
    call_provider_anthropic_kiro env uuid model stream
      = (ServerResponse.jsonError 401 ("Token refresh failed: " ++ e),
         [PoolEffect.markUnhealthy uuid ("Token refresh failed: " ++ e)]) := by
  have hsucc : isSuccessStatus resp.status = false := by
    rcases hstatus with h | h <;> simp [isSuccessStatus, h]
  have h40x : (resp.status == 401 || resp.status == 403) = true := by
    rcases hstatus with h | h <;> simp [h]
  unfold call_provider_anthropic_kiro
  rw [hdb, htok, hcall]
  dsimp only
  rw [hsucc, h40x, hrefresh]
  rfl

/-- Claim **C3 witness**: the amended theorem applied to the concrete
environment. -/
theorem forced_refresh_failure_spec_witness :
    call_provider_anthropic_kiro c3Env "cred-1" "claude-x" true
      = (ServerResponse.jsonError 401 "Token refresh failed: boom",
         [PoolEffect.markUnhealthy "cred-1" "Token refresh failed: boom"]) :=
  forced_refresh_failure_spec c3Env "cred-1" "claude-x" true "tok"
    { status := 401, body := .ok "" } "boom" rfl rfl rfl (Or.inl rfl) rfl

end ProxyCast
